import Mathlib

/-!
# MERN template API: a shallow embedding of backend/server.js

The Express handlers of `backend/server.js` are embedded as pure functions
`Runtime → request → Store → Response × Store`.

What is embedded from the repository: the two Mongoose schemas (lines 33-76),
every route handler that touches the database (lines 91-337) and the error
middleware (lines 372-380).

What is external to the repository and modelled here after its documented
behaviour (Mongoose 6 or later, which the code requires: it awaits
`post.populate(...)` directly and relies on `undefined` keys being dropped
from update documents):

* a collection is a list of documents in insertion order;
* ObjectIds are natural numbers handed out by a counter kept in the store;
* `new Date()` is an argument of the handler (milliseconds);
* `String.prototype.trim` is defined exactly; `String.prototype.toLowerCase`
  is a field of `Runtime`, so every universally quantified theorem holds for
  the real function;
* numbers are integers: the code only stores `age` and compares it with 0;
* request bodies are typed: `name`, `email`, `title`, `content` are strings,
  `age` is a number, each possibly absent or `null`;
* the database never fails: the only errors are cast, validation and
  duplicate-key errors.

Not modelled: the version key `__v`, the read-only routes /api/health and
/api, the 404 route, and the provisioning script `mongo-init.js`, which the
running service does not execute.
-/

namespace MernApp

/-! ## Values -/

/-- An ObjectId, abstracted to the natural number that identifies it. -/
abbrev ObjectId := Nat

/-- A property of a JSON request body after destructuring: absent
(`undefined`), `null`, or a value of the expected type. -/
inductive ReqField (α : Type) where
  | undefined : ReqField α
  | null : ReqField α
  | val (a : α) : ReqField α
  deriving DecidableEq, Repr

/-- A string that is used where Mongoose expects an ObjectId, as in the path
parameter `:id` or the `author` of a Post: either the cast fails (so for the
empty string) or it gives an ObjectId. -/
inductive IdString where
  | malformed (raw : String) : IdString
  | oid (i : ObjectId) : IdString
  deriving DecidableEq, Repr

/-- The part of the Node process the handlers read: the built-in
`String.prototype.toLowerCase` and `process.env.NODE_ENV`. -/
structure Runtime where
  toLowerCase : String → String
  NODE_ENV : Option String

/-- JavaScript truthiness of a string-valued body property (`!name` is its
negation): `undefined`, `null` and the empty string are falsy. -/
def truthy : ReqField String → Bool
  | .val s => decide (s ≠ "")
  | _ => false

/-- JavaScript truthiness of the `author` body property. A well-formed id is a
24 character string, hence truthy. -/
def truthyId : ReqField IdString → Bool
  | .val (.malformed raw) => decide (raw ≠ "")
  | .val (.oid _) => true
  | _ => false

/-- White space and line terminators of ECMAScript, the characters that
`String.prototype.trim` strips. -/
def isJsWhiteSpace (c : Char) : Bool :=
  c.toNat ∈ [0x9, 0xA, 0xB, 0xC, 0xD, 0x20, 0xA0, 0x1680, 0x2000, 0x2001, 0x2002,
    0x2003, 0x2004, 0x2005, 0x2006, 0x2007, 0x2008, 0x2009, 0x200A, 0x2028,
    0x2029, 0x202F, 0x205F, 0x3000, 0xFEFF]

/-- The built-in `String.prototype.trim`. -/
def trim (s : String) : String :=
  String.mk ((s.data.dropWhile isJsWhiteSpace).reverse.dropWhile isJsWhiteSpace).reverse

/-! ## Errors thrown by Mongoose and the MongoDB driver -/

/-- A thrown JavaScript error, reduced to what the handlers read: `code` and
`message`. The message texts abbreviate the ones of the library. -/
structure JsError where
  name : String
  code : Option Nat
  message : String
  deriving DecidableEq, Repr

/-- CastError of a string that is not an ObjectId. -/
def castError (raw path model : String) : JsError :=
  { name := "CastError", code := none,
    message := "Cast to ObjectId failed for value \"" ++ raw ++ "\" (type string) at path \""
      ++ path ++ "\" for model \"" ++ model ++ "\"" }

/-- ValidationError listing the messages of the failing paths. -/
def validationError (head : String) (paths : List String) : JsError :=
  { name := "ValidationError", code := none,
    message := head ++ ": " ++ ", ".intercalate paths }

/-- MongoServerError E11000 raised by a unique index. -/
def duplicateKeyError (collection index : String) : JsError :=
  { name := "MongoServerError", code := some 11000,
    message := "E11000 duplicate key error collection: " ++ collection ++ " index: " ++ index }

/-! ## Documents and the store -/

/-- A stored User (userSchema, lines 33-52, with `timestamps: true`). -/
structure UserDoc where
  _id : ObjectId
  name : String
  email : String
  age : ReqField Int
  createdAt : Nat
  updatedAt : Nat
  deriving DecidableEq, Repr

/-- A stored Post (postSchema, lines 57-74, with `timestamps: true`). -/
structure PostDoc where
  _id : ObjectId
  title : String
  content : String
  author : ObjectId
  createdAt : Nat
  updatedAt : Nat
  deriving DecidableEq, Repr

/-- The database: the two collections in insertion order, and the next
ObjectId the driver will generate. -/
structure Store where
  users : List UserDoc
  posts : List PostDoc
  nextId : ObjectId
  deriving DecidableEq, Repr

/-- The author of a populated Post: populating the path author with the
selection name email keeps `name` and `email`, and `_id` is always selected. -/
structure AuthorView where
  _id : ObjectId
  name : String
  email : String
  deriving DecidableEq, Repr

/-- A Post after population of its author path: the author is the
projected User, or `null` (here `none`) when no User has that id. -/
structure PopulatedPost where
  _id : ObjectId
  title : String
  content : String
  author : Option AuthorView
  createdAt : Nat
  updatedAt : Nat
  deriving DecidableEq, Repr

/-- The `data` property of a response body. -/
inductive Payload where
  | user (u : UserDoc) : Payload
  | users (us : List UserDoc) : Payload
  | post (p : PopulatedPost) : Payload
  | posts (ps : List PopulatedPost) : Payload
  | seeded (users posts : Nat) : Payload
  deriving DecidableEq, Repr

/-- An HTTP response: status code and the properties of the JSON envelope. -/
structure Response where
  status : Nat
  success : Bool
  message : Option String
  count : Option Nat
  data : Option Payload
  error : Option String
  deriving DecidableEq, Repr

/-- Body of POST /api/users and PUT /api/users/:id after
`const { name, email, age } = req.body`. -/
structure UserBody where
  name : ReqField String
  email : ReqField String
  age : ReqField Int
  deriving DecidableEq, Repr

/-- Body of POST /api/posts after `const { title, content, author } = req.body`. -/
structure PostBody where
  title : ReqField String
  content : ReqField String
  author : ReqField IdString
  deriving DecidableEq, Repr

/-! ## Mongoose: setters and validators declared by the schemas -/

/-- Value of a field that is known to hold a string. -/
def ReqField.getD {α : Type} (d : α) : ReqField α → α
  | .val a => a
  | _ => d

/-- The `trim: true` setter: `if (v) return v.trim(); return v`. -/
def trimSetter (v : String) : String :=
  if v = "" then v else trim v

/-- The `lowercase: true` setter: `if (v) return v.toLowerCase(); return v`. -/
def lowercaseSetter (rt : Runtime) (v : String) : String :=
  if v = "" then v else rt.toLowerCase v

/-- Setters of the path `name` (line 34-38): trim. -/
def castName : ReqField String → ReqField String
  | .val s => .val (trimSetter s)
  | f => f

/-- Setters of the path `email` (lines 39-45): lowercase, then trim. (The two
commute for the real `toLowerCase`, which maps no character to or from white
space.) -/
def castEmail (rt : Runtime) : ReqField String → ReqField String
  | .val s => .val (trimSetter (lowercaseSetter rt s))
  | f => f

/-- The document `{ name, email, age }` after the setters of userSchema. The
same casting is applied by `new User(...)` and to the `$set` of an update. -/
def castUser (rt : Runtime) (b : UserBody) : UserBody :=
  { name := castName b.name, email := castEmail rt b.email, age := b.age }

/-- The `required: true` validator of a String path: a non-empty string. -/
def requiredOk : ReqField String → Bool
  | .val s => decide (s ≠ "")
  | _ => false

/-- The `min: 0` validator: `value == null || value >= 0`. -/
def minOk : ReqField Int → Bool
  | .val n => decide (0 ≤ n)
  | _ => true

/-- Validators of the path `name`. -/
def validateName (v : ReqField String) : List String :=
  if requiredOk v then [] else ["name: Path `name` is required."]

/-- Validators of the path `email`. -/
def validateEmail (v : ReqField String) : List String :=
  if requiredOk v then [] else ["email: Path `email` is required."]

/-- Validators of the path `age`. -/
def validateAge (v : ReqField Int) : List String :=
  if minOk v then [] else ["age: Path `age` is less than minimum allowed value (0)."]

/-- Document validation, run by `save()` and `insertMany()`: every path. -/
def validateDocument (d : UserBody) : List String :=
  validateName d.name ++ validateEmail d.email ++ validateAge d.age

/-- Update validation (`runValidators: true`): only the paths that are in the
update document. Keys whose value is `undefined` have been removed from it. -/
def validateUpdate (d : UserBody) : List String :=
  (if d.name = .undefined then [] else validateName d.name)
    ++ (if d.email = .undefined then [] else validateEmail d.email)
    ++ (if d.age = .undefined then [] else validateAge d.age)

/-! ## MongoDB: collection operations -/

/-- The query `findById` on Users: the first document with that `_id`. -/
def findById (users : List UserDoc) (i : ObjectId) : Option UserDoc :=
  users.find? (fun u => decide (u._id = i))

/-- Insertion into Users under the unique indexes on `_id` and on `email`. -/
def insertUserDoc (users : List UserDoc) (u : UserDoc) : Except JsError (List UserDoc) :=
  if ∃ v ∈ users, v._id = u._id then .error (duplicateKeyError "users" "_id_")
  else if ∃ v ∈ users, v.email = u.email then .error (duplicateKeyError "users" "email_1")
  else .ok (users ++ [u])

/-- Insertion into Posts under the unique index on `_id`. -/
def insertPostDoc (posts : List PostDoc) (p : PostDoc) : Except JsError (List PostDoc) :=
  if ∃ q ∈ posts, q._id = p._id then .error (duplicateKeyError "posts" "_id_")
  else .ok (posts ++ [p])

/-- Replace the first document with `_id = i` by `u`. -/
def replaceFirst (i : ObjectId) (u : UserDoc) : List UserDoc → List UserDoc
  | [] => []
  | v :: vs => if v._id = i then u :: vs else v :: replaceFirst i u vs

/-- Remove the first document with `_id = i`. -/
def removeFirst (i : ObjectId) : List UserDoc → List UserDoc
  | [] => []
  | v :: vs => if v._id = i then vs else v :: removeFirst i vs

/-- The `$set` of an update applied to a stored User, with the `updatedAt`
that `timestamps: true` adds to every update. -/
def applySet (d : UserBody) (now : Nat) (u : UserDoc) : UserDoc :=
  { _id := u._id,
    name := match d.name with
      | .val s => s
      | _ => u.name,
    email := match d.email with
      | .val s => s
      | _ => u.email,
    age := match d.age with
      | .undefined => u.age
      | a => a,
    createdAt := u.createdAt,
    updatedAt := now }

/-- The document built by `new User({ name, email, age })` with generated id
`i`, once it has passed validation and been stamped with `createdAt` and
`updatedAt`. -/
def newUser (rt : Runtime) (now : Nat) (b : UserBody) (i : ObjectId) : UserDoc :=
  { _id := i, name := (castUser rt b).name.getD "", email := (castUser rt b).email.getD "",
    age := (castUser rt b).age, createdAt := now, updatedAt := now }

/-- Model of `new User({ name, email, age })` followed by `save()` (lines 123-124): the
driver generates the `_id`, the setters cast the fields, the document is
validated, stamped and inserted. -/
def saveUser (rt : Runtime) (now : Nat) (b : UserBody) (s : Store) :
    Except JsError UserDoc × Store :=
  let s1 : Store := { s with nextId := s.nextId + 1 }
  if validateDocument (castUser rt b) = [] then
    match insertUserDoc s.users (newUser rt now b s.nextId) with
    | .ok users => (.ok (newUser rt now b s.nextId), { s1 with users := users })
    | .error e => (.error e, s1)
  else (.error (validationError "User validation failed" (validateDocument (castUser rt b))), s1)

/-- Model of `User.findByIdAndUpdate(id, { name, email, age }, { new: true,
runValidators: true })` (lines 181-185): cast the id, cast the update (keys
with value `undefined` are dropped), run the update validators, then update
the first matching document under the unique index on `email`; the result is
the updated document, or `null` when none matches. -/
def findByIdAndUpdate (rt : Runtime) (now : Nat) (id : IdString) (b : UserBody) (s : Store) :
    Except JsError (Option UserDoc) × Store :=
  match id with
  | .malformed raw => (.error (castError raw "_id" "User"), s)
  | .oid i =>
    let d := castUser rt b
    if validateUpdate d = [] then
      match findById s.users i with
      | none => (.ok none, s)
      | some u =>
        let u1 := applySet d now u
        if u1.email ≠ u.email ∧ ∃ v ∈ removeFirst i s.users, v.email = u1.email then
          (.error (duplicateKeyError "users" "email_1"), s)
        else (.ok (some u1), { s with users := replaceFirst i u1 s.users })
    else (.error (validationError "Validation failed" (validateUpdate d)), s)

/-- Model of `User.findByIdAndDelete(id)` (line 212). -/
def findByIdAndDelete (id : IdString) (s : Store) : Except JsError (Option UserDoc) × Store :=
  match id with
  | .malformed raw => (.error (castError raw "_id" "User"), s)
  | .oid i =>
    match findById s.users i with
    | none => (.ok none, s)
    | some u => (.ok (some u), { s with users := removeFirst i s.users })

/-- Population of the author path of one Post, selecting name and email. -/
def populate (users : List UserDoc) (p : PostDoc) : PopulatedPost :=
  { _id := p._id, title := p.title, content := p.content,
    author := (findById users p.author).map
      (fun u => { _id := u._id, name := u.name, email := u.email }),
    createdAt := p.createdAt, updatedAt := p.updatedAt }

/-- The order of `sort({ createdAt: -1 })` on Users. -/
def userNewerEq (a b : UserDoc) : Prop := b.createdAt ≤ a.createdAt

/-- The order of `sort({ createdAt: -1 })` on Posts. -/
def postNewerEq (a b : PostDoc) : Prop := b.createdAt ≤ a.createdAt

instance : DecidableRel userNewerEq :=
  fun a b => inferInstanceAs (Decidable (b.createdAt ≤ a.createdAt))

instance : DecidableRel postNewerEq :=
  fun a b => inferInstanceAs (Decidable (b.createdAt ≤ a.createdAt))

/-! ## Responses -/

/-- Body `{ success: false, message }` or `{ success: false, message, error }`. -/
def failure (status : Nat) (message : String) (error : Option String) : Response :=
  { status := status, success := false, message := some message, count := none,
    data := none, error := error }

/-- Body `{ success: true, message, data }`; the message and the data are optional. -/
def succeeded (status : Nat) (message : Option String) (data : Option Payload) : Response :=
  { status := status, success := true, message := message, count := none,
    data := data, error := none }

/-! ## Route handlers -/

/-- GET /api/users (lines 92-108). -/
def getUsers (_rt : Runtime) (s : Store) : Response × Store :=
  let users := s.users.insertionSort userNewerEq
  ({ status := 200, success := true, message := none, count := some users.length,
     data := some (.users users), error := none }, s)

/-- POST /api/users (lines 111-148). -/
def postUsers (rt : Runtime) (now : Nat) (body : UserBody) (s : Store) : Response × Store :=
  if !truthy body.name || !truthy body.email then
    (failure 400 "Name and email are required" none, s)
  else
    match saveUser rt now body s with
    | (.ok user, s1) => (succeeded 201 (some "User created successfully") (some (.user user)), s1)
    | (.error error, s1) =>
      if error.code = some 11000 then (failure 400 "Email already exists" none, s1)
      else (failure 500 "Failed to create user" (some error.message), s1)

/-- GET /api/users/:id (lines 151-174). -/
def getUserById (_rt : Runtime) (id : IdString) (s : Store) : Response × Store :=
  match id with
  | .malformed raw =>
    (failure 500 "Failed to fetch user" (some (castError raw "_id" "User").message), s)
  | .oid i =>
    match findById s.users i with
    | none => (failure 404 "User not found" none, s)
    | some user => (succeeded 200 none (some (.user user)), s)

/-- PUT /api/users/:id (lines 177-207). -/
def putUser (rt : Runtime) (now : Nat) (id : IdString) (body : UserBody) (s : Store) :
    Response × Store :=
  match findByIdAndUpdate rt now id body s with
  | (.ok none, s1) => (failure 404 "User not found" none, s1)
  | (.ok (some user), s1) =>
    (succeeded 200 (some "User updated successfully") (some (.user user)), s1)
  | (.error error, s1) => (failure 500 "Failed to update user" (some error.message), s1)

/-- DELETE /api/users/:id (lines 210-233). -/
def deleteUser (_rt : Runtime) (id : IdString) (s : Store) : Response × Store :=
  match findByIdAndDelete id s with
  | (.ok none, s1) => (failure 404 "User not found" none, s1)
  | (.ok (some _), s1) => (succeeded 200 (some "User deleted successfully") none, s1)
  | (.error error, s1) => (failure 500 "Failed to delete user" (some error.message), s1)

/-- The query of GET /api/posts: find all Posts, populate the author path with
name and email, sort by createdAt descending (lines 238-240). -/
def findPosts (s : Store) : List PopulatedPost :=
  (s.posts.insertionSort postNewerEq).map (populate s.users)

/-- GET /api/posts (lines 236-255). -/
def getPosts (_rt : Runtime) (s : Store) : Response × Store :=
  let posts := findPosts s
  ({ status := 200, success := true, message := none, count := some posts.length,
     data := some (.posts posts), error := none }, s)

/-- Validators of postSchema on the cast document: `title` (trimmed) and
`content` are required. The author is required too; where this is used it is
an ObjectId, which passes. -/
def validatePost (title content : ReqField String) : List String :=
  (if requiredOk title then [] else ["title: Path `title` is required."])
    ++ (if requiredOk content then [] else ["content: Path `content` is required."])

/-- The document built by `new Post({ title, content, author })` with
generated id `i`: the title is trimmed, the content is kept as it is. -/
def newPost (now : Nat) (title content : ReqField String) (author i : ObjectId) : PostDoc :=
  { _id := i, title := (castName title).getD "", content := content.getD "",
    author := author, createdAt := now, updatedAt := now }

/-- Model of `new Post({ title, content, author })` followed by `save()` (lines
279-280), for an author that already is an ObjectId. -/
def savePost (now : Nat) (title content : ReqField String) (author : ObjectId) (s : Store) :
    Except JsError PostDoc × Store :=
  let s1 : Store := { s with nextId := s.nextId + 1 }
  if validatePost (castName title) content = [] then
    match insertPostDoc s.posts (newPost now title content author s.nextId) with
    | .ok posts => (.ok (newPost now title content author s.nextId), { s1 with posts := posts })
    | .error e => (.error e, s1)
  else
    (.error (validationError "Post validation failed" (validatePost (castName title) content)), s1)

/-- POST /api/posts (lines 258-298). -/
def postPosts (_rt : Runtime) (now : Nat) (body : PostBody) (s : Store) : Response × Store :=
  if !truthy body.title || !truthy body.content || !truthyId body.author then
    (failure 400 "Title, content, and author are required" none, s)
  else
    match body.author with
    | .val (.oid author) =>
      match findById s.users author with
      | none => (failure 400 "Author not found" none, s)
      | some _ =>
        match savePost now body.title body.content author s with
        | (.ok post, s1) =>
          (succeeded 201 (some "Post created successfully")
            (some (.post (populate s1.users post))), s1)
        | (.error error, s1) => (failure 500 "Failed to create post" (some error.message), s1)
    | .val (.malformed raw) =>
      (failure 500 "Failed to create post" (some (castError raw "_id" "User").message), s)
    | _ => (failure 400 "Title, content, and author are required" none, s)

/-- Error handling middleware (lines 373-380), reached by errors that no
handler caught, such as a request body that is not JSON. -/
def errorMiddleware (rt : Runtime) (error : JsError) : Response :=
  failure 500 "Internal server error"
    (some (if rt.NODE_ENV = some "development" then error.message else "Something went wrong"))

/-! ## Seeding -/

/-- A Post document given to `Post.insertMany`, the author being an ObjectId. -/
structure PostFields where
  title : ReqField String
  content : ReqField String
  author : ObjectId
  deriving DecidableEq, Repr

/-- The readings of the clock when `insertMany` stamps the six seeded documents. -/
structure SeedClock where
  user0 : Nat
  user1 : Nat
  user2 : Nat
  post0 : Nat
  post1 : Nat
  post2 : Nat
  deriving DecidableEq, Repr

/-- The User documents `insertMany` constructs: consecutive fresh ids, cast
fields, and the time stamp of each. -/
def mkUsers (rt : Runtime) : ObjectId → List (UserBody × Nat) → List UserDoc
  | _, [] => []
  | i, (b, now) :: rest => newUser rt now b i :: mkUsers rt (i + 1) rest

/-- The Post documents `insertMany` constructs. -/
def mkPosts : ObjectId → List (PostFields × Nat) → List PostDoc
  | _, [] => []
  | i, (b, now) :: rest => newPost now b.title b.content b.author i :: mkPosts (i + 1) rest

/-- An ordered bulk insert into Users: documents are inserted one by one and
the first error stops the insert, the earlier documents staying inserted. -/
def insertUsersOrdered : List UserDoc → List UserDoc → Option JsError × List UserDoc
  | users, [] => (none, users)
  | users, u :: rest =>
    match insertUserDoc users u with
    | .ok users1 => insertUsersOrdered users1 rest
    | .error e => (some e, users)

/-- An ordered bulk insert into Posts. -/
def insertPostsOrdered : List PostDoc → List PostDoc → Option JsError × List PostDoc
  | posts, [] => (none, posts)
  | posts, p :: rest =>
    match insertPostDoc posts p with
    | .ok posts1 => insertPostsOrdered posts1 rest
    | .error e => (some e, posts)

/-- Model of `User.insertMany(docs)`: every document is constructed and validated
first (a validation error rejects the call before anything is written), then
the documents are inserted in order. -/
def insertManyUsers (rt : Runtime) (docs : List (UserBody × Nat)) (s : Store) :
    Except JsError (List UserDoc) × Store :=
  let s1 : Store := { s with nextId := s.nextId + docs.length }
  match (docs.map (fun d => castUser rt d.1)).find?
      (fun d => decide (validateDocument d ≠ [])) with
  | some d => (.error (validationError "User validation failed" (validateDocument d)), s1)
  | none =>
    match insertUsersOrdered s.users (mkUsers rt s.nextId docs) with
    | (none, users) => (.ok (mkUsers rt s.nextId docs), { s1 with users := users })
    | (some e, users) => (.error e, { s1 with users := users })

/-- Model of `Post.insertMany(docs)`, in the same way. -/
def insertManyPosts (docs : List (PostFields × Nat)) (s : Store) :
    Except JsError (List PostDoc) × Store :=
  let s1 : Store := { s with nextId := s.nextId + docs.length }
  match docs.find? (fun d => decide (validatePost (castName d.1.title) d.1.content ≠ [])) with
  | some d =>
    (.error (validationError "Post validation failed"
      (validatePost (castName d.1.title) d.1.content)), s1)
  | none =>
    match insertPostsOrdered s.posts (mkPosts s.nextId docs) with
    | (none, posts) => (.ok (mkPosts s.nextId docs), { s1 with posts := posts })
    | (some e, posts) => (.error e, { s1 with posts := posts })

/-- The sample users of the seed endpoint (lines 308-312). -/
def seedUsers (clock : SeedClock) : List (UserBody × Nat) :=
  [({ name := .val "John Doe", email := .val "john@example.com", age := .val 30 }, clock.user0),
   ({ name := .val "Jane Smith", email := .val "jane@example.com", age := .val 25 }, clock.user1),
   ({ name := .val "Bob Johnson", email := .val "bob@example.com", age := .val 35 }, clock.user2)]

/-- The sample posts of the seed endpoint (lines 315-319), given `users[0]._id`
and `users[1]._id`. -/
def seedPosts (clock : SeedClock) (id0 id1 : ObjectId) : List (PostFields × Nat) :=
  [({ title := .val "First Post", content := .val "This is the first post content",
      author := id0 }, clock.post0),
   ({ title := .val "Second Post", content := .val "This is the second post content",
      author := id1 }, clock.post1),
   ({ title := .val "Third Post", content := .val "This is the third post content",
      author := id0 }, clock.post2)]

/-- POST /api/seed (lines 301-337). -/
def postSeed (rt : Runtime) (clock : SeedClock) (s : Store) : Response × Store :=
  let s1 : Store := { s with users := [] }
  let s2 : Store := { s1 with posts := [] }
  match insertManyUsers rt (seedUsers clock) s2 with
  | (.error error, s3) => (failure 500 "Failed to seed database" (some error.message), s3)
  | (.ok users, s3) =>
    match users with
    | u0 :: u1 :: _ =>
      match insertManyPosts (seedPosts clock u0._id u1._id) s3 with
      | (.error error, s4) => (failure 500 "Failed to seed database" (some error.message), s4)
      | (.ok posts, s4) =>
        (succeeded 200 (some "Database seeded successfully")
          (some (.seeded users.length posts.length)), s4)
    | _ =>
      (failure 500 "Failed to seed database"
        (some "Cannot read properties of undefined (reading _id)"), s3)

/-! ## A concrete runtime, for evaluating the handlers on ASCII input -/

/-- Lower-casing of the ASCII letters; it agrees with `toLowerCase` on ASCII
strings. -/
def asciiLower (s : String) : String :=
  String.mk (s.data.map Char.toLower)

/-- A Node process started with `NODE_ENV=production`. -/
def production : Runtime :=
  { toLowerCase := asciiLower, NODE_ENV := some "production" }

/-- A Node process started with `NODE_ENV=development`. -/
def development : Runtime :=
  { toLowerCase := asciiLower, NODE_ENV := some "development" }

/-- The empty database. -/
def emptyStore : Store :=
  { users := [], posts := [], nextId := 0 }

/-- The store that seeding the empty database leaves, the clock reading 1 to 6
for the six documents: Users 0, 1, 2 and Posts 3, 4, 5. -/
def seeded : Store :=
  (postSeed production ⟨1, 2, 3, 4, 5, 6⟩ emptyStore).2

/-- The first seeded User, as stored in `seeded`. -/
def john : UserDoc :=
  { _id := 0, name := "John Doe", email := "john@example.com", age := .val 30,
    createdAt := 1, updatedAt := 1 }

/-! ## Reachable stores -/

instance : IsTotal PostDoc postNewerEq := ⟨fun a b => Nat.le_total b.createdAt a.createdAt⟩

instance : IsTrans PostDoc postNewerEq := ⟨fun _ _ _ hab hbc => Nat.le_trans hbc hab⟩

/-- The stores the API can bring about, starting from the empty database, by
the operations that write: create, update and delete User, create Post, seed. -/
inductive Reachable (rt : Runtime) : Store → Prop where
  | empty : Reachable rt emptyStore
  | create (now : Nat) (body : UserBody) {s : Store} :
      Reachable rt s → Reachable rt (postUsers rt now body s).2
  | update (now : Nat) (id : IdString) (body : UserBody) {s : Store} :
      Reachable rt s → Reachable rt (putUser rt now id body s).2
  | delete (id : IdString) {s : Store} :
      Reachable rt s → Reachable rt (deleteUser rt id s).2
  | publish (now : Nat) (body : PostBody) {s : Store} :
      Reachable rt s → Reachable rt (postPosts rt now body s).2
  | seed (clock : SeedClock) {s : Store} :
      Reachable rt s → Reachable rt (postSeed rt clock s).2

/-- The invariants of the database: the unique indexes on the `_id` of Users,
on the `email` of Users and on the `_id` of Posts hold, and every id in use
was generated before the next one. -/
def WellFormed (s : Store) : Prop :=
  (s.users.map (fun u => u._id)).Nodup
  ∧ (s.users.map (fun u => u.email)).Nodup
  ∧ (s.posts.map (fun p => p._id)).Nodup
  ∧ (∀ u ∈ s.users, u._id < s.nextId)
  ∧ (∀ p ∈ s.posts, p._id < s.nextId)

/-! ## Lemmas on the collection operations -/

theorem trim_empty : trim "" = "" := by decide

theorem findById_eq_none_iff (users : List UserDoc) (i : ObjectId) :
    findById users i = none ↔ ∀ u ∈ users, u._id ≠ i := by
  simp [findById, List.find?_eq_none]

theorem findById_some {users : List UserDoc} {i : ObjectId} {u : UserDoc}
    (h : findById users i = some u) : u._id = i ∧ u ∈ users := by
  unfold findById at h
  have h1 := List.find?_some h
  have h2 := List.mem_of_find?_eq_some h
  exact ⟨by simpa using h1, h2⟩

theorem findById_isSome_of_mem {users : List UserDoc} {u : UserDoc} (h : u ∈ users) :
    ∃ v, findById users u._id = some v := by
  cases hf : findById users u._id with
  | none => exact absurd rfl ((findById_eq_none_iff _ _).1 hf u h)
  | some v => exact ⟨v, rfl⟩

theorem removeFirst_sublist (i : ObjectId) (users : List UserDoc) :
    (removeFirst i users).Sublist users := by
  induction users with
  | nil => exact List.Sublist.slnil
  | cons v vs ih =>
    unfold removeFirst
    split
    · exact List.sublist_cons_self v vs
    · exact ih.cons₂ v

theorem mem_removeFirst_of_ne {i : ObjectId} {users : List UserDoc} {u : UserDoc}
    (hu : u ∈ users) (hne : u._id ≠ i) : u ∈ removeFirst i users := by
  induction users with
  | nil => cases hu
  | cons v vs ih =>
    unfold removeFirst
    rcases List.mem_cons.1 hu with rfl | hmem
    · simp [hne]
    · split
      · exact hmem
      · exact List.mem_cons_of_mem _ (ih hmem)

theorem findById_removeFirst {i : ObjectId} {users : List UserDoc}
    (hnodup : (users.map (fun u => u._id)).Nodup) : findById (removeFirst i users) i = none := by
  induction users with
  | nil => rfl
  | cons v vs ih =>
    have hn : (∀ x ∈ vs, ¬x._id = v._id) ∧ (vs.map (fun u => u._id)).Nodup := by
      simpa using hnodup
    unfold removeFirst
    split
    next h =>
      rw [findById_eq_none_iff]
      intro u hu hui
      exact hn.1 u hu (by rw [hui, h])
    next h =>
      have := ih hn.2
      simp only [findById, List.find?_cons, h, decide_False] at this ⊢
      exact this

/-! ## Lemmas on saving a User -/

theorem trimSetter_eq (v : String) : trimSetter v = trim v := by
  unfold trimSetter
  split
  next h => rw [h, trim_empty]
  next => rfl

theorem lowercaseSetter_eq (rt : Runtime) {v : String} (h : v ≠ "") :
    lowercaseSetter rt v = rt.toLowerCase v := by
  simp [lowercaseSetter, h]

theorem truthy_eq_true {f : ReqField String} (h : truthy f = true) :
    ∃ v, f = .val v ∧ v ≠ "" := by
  cases f with
  | undefined => simp [truthy] at h
  | null => simp [truthy] at h
  | val v => exact ⟨v, rfl, by simpa [truthy] using h⟩

theorem insertUserDoc_error_code {users : List UserDoc} {u : UserDoc} {e : JsError}
    (h : insertUserDoc users u = .error e) : e.code = some 11000 := by
  unfold insertUserDoc at h
  split at h
  · cases h; rfl
  · split at h
    · cases h; rfl
    · cases h

theorem insertUserDoc_ok {users users1 : List UserDoc} {u : UserDoc}
    (h : insertUserDoc users u = .ok users1) :
    users1 = users ++ [u] ∧ (∀ v ∈ users, v._id ≠ u._id)
      ∧ (∀ v ∈ users, v.email ≠ u.email) := by
  unfold insertUserDoc at h
  split at h
  · cases h
  · split at h
    · cases h
    · rename_i h1 h2
      cases h
      refine ⟨rfl, ?_, ?_⟩
      · intro v hv hid; exact h1 ⟨v, hv, hid⟩
      · intro v hv hid; exact h2 ⟨v, hv, hid⟩

theorem insertUserDoc_of_fresh {users : List UserDoc} {u : UserDoc}
    (h1 : ∀ v ∈ users, v._id ≠ u._id) (h2 : ∀ v ∈ users, v.email ≠ u.email) :
    insertUserDoc users u = .ok (users ++ [u]) := by
  unfold insertUserDoc
  rw [if_neg, if_neg]
  · rintro ⟨v, hv, h⟩; exact h2 v hv h
  · rintro ⟨v, hv, h⟩; exact h1 v hv h

theorem saveUser_ok {rt : Runtime} {now : Nat} {b : UserBody} {s s1 : Store} {u : UserDoc}
    (h : saveUser rt now b s = (.ok u, s1)) :
    validateDocument (castUser rt b) = [] ∧ u = newUser rt now b s.nextId
      ∧ (∀ v ∈ s.users, v._id ≠ s.nextId) ∧ (∀ v ∈ s.users, v.email ≠ u.email)
      ∧ s1 = { users := s.users ++ [u], posts := s.posts, nextId := s.nextId + 1 } := by
  unfold saveUser at h
  simp only at h
  split at h
  next hval =>
    split at h
    next users hins =>
      have := insertUserDoc_ok hins
      simp only [Prod.mk.injEq, Except.ok.injEq] at h
      obtain ⟨hu, hs⟩ := h
      subst hu
      refine ⟨hval, rfl, this.2.1, this.2.2, ?_⟩
      rw [← hs, this.1]
    next e hins => simp at h
  next => simp at h

theorem saveUser_of_valid (rt : Runtime) (now : Nat) {b : UserBody} {s : Store}
    (hval : validateDocument (castUser rt b) = [])
    (h1 : ∀ v ∈ s.users, v._id ≠ s.nextId)
    (h2 : ∀ v ∈ s.users, v.email ≠ (castEmail rt b.email).getD "") :
    saveUser rt now b s = (.ok (newUser rt now b s.nextId),
      { users := s.users ++ [newUser rt now b s.nextId], posts := s.posts,
        nextId := s.nextId + 1 }) := by
  unfold saveUser
  simp only [hval, if_true]
  rw [insertUserDoc_of_fresh h1 h2]

theorem saveUser_error {rt : Runtime} {now : Nat} {b : UserBody} {s s1 : Store} {e : JsError}
    (h : saveUser rt now b s = (.error e, s1)) :
    s1 = { users := s.users, posts := s.posts, nextId := s.nextId + 1 } := by
  unfold saveUser at h
  simp only at h
  split at h
  next hval =>
    split at h
    next users hins => simp at h
    next e1 hins =>
      simp only [Prod.mk.injEq] at h
      exact h.2.symm
  next =>
    simp only [Prod.mk.injEq] at h
    exact h.2.symm

theorem findById_append_of_fresh {users : List UserDoc} {u : UserDoc}
    (h : ∀ v ∈ users, v._id ≠ u._id) : findById (users ++ [u]) u._id = some u := by
  unfold findById
  rw [List.find?_append]
  have : List.find? (fun v => decide (v._id = u._id)) users = none := by
    simpa [List.find?_eq_none] using h
  rw [this]
  simp

/-! ## Lemmas on updating a User -/

theorem findById_replaceFirst {users : List UserDoc} {i : ObjectId} {u u1 : UserDoc}
    (h : findById users i = some u) (h1 : u1._id = i) :
    findById (replaceFirst i u1 users) i = some u1 := by
  induction users with
  | nil => simp [findById] at h
  | cons v vs ih =>
    unfold replaceFirst
    by_cases hv : v._id = i
    · simp [hv, findById, h1]
    · have hvs : findById vs i = some u := by
        simpa [findById, List.find?_cons, hv] using h
      simpa [hv, findById, List.find?_cons] using ih hvs

/-- The three ways PUT /api/users/:id ends for a well-formed id of a stored
User: rejected by the update validators, rejected by the unique index on
email, or applied. -/
theorem putUser_cases (rt : Runtime) (now : Nat) (i : ObjectId) (body : UserBody) (s : Store)
    (u : UserDoc) (hu : findById s.users i = some u) :
    (validateUpdate (castUser rt body) ≠ []
      ∧ putUser rt now (.oid i) body s
        = (failure 500 "Failed to update user"
            (some (validationError "Validation failed" (validateUpdate (castUser rt body))).message),
           s))
    ∨ (validateUpdate (castUser rt body) = []
      ∧ ((applySet (castUser rt body) now u).email ≠ u.email
          ∧ ∃ v ∈ removeFirst i s.users, v.email = (applySet (castUser rt body) now u).email)
      ∧ putUser rt now (.oid i) body s
        = (failure 500 "Failed to update user"
            (some (duplicateKeyError "users" "email_1").message), s))
    ∨ (validateUpdate (castUser rt body) = []
      ∧ ¬ ((applySet (castUser rt body) now u).email ≠ u.email
          ∧ ∃ v ∈ removeFirst i s.users, v.email = (applySet (castUser rt body) now u).email)
      ∧ putUser rt now (.oid i) body s
        = (succeeded 200 (some "User updated successfully")
            (some (.user (applySet (castUser rt body) now u))),
           { s with users := replaceFirst i (applySet (castUser rt body) now u) s.users })) := by
  by_cases hval : validateUpdate (castUser rt body) = []
  · by_cases hdup : (applySet (castUser rt body) now u).email ≠ u.email
        ∧ ∃ v ∈ removeFirst i s.users, v.email = (applySet (castUser rt body) now u).email
    · refine Or.inr (Or.inl ⟨hval, hdup, ?_⟩)
      unfold putUser findByIdAndUpdate
      simp only [hval, if_true, hu]
      rw [if_pos hdup]
    · refine Or.inr (Or.inr ⟨hval, hdup, ?_⟩)
      unfold putUser findByIdAndUpdate
      simp only [hval, if_true, hu]
      rw [if_neg hdup]
  · refine Or.inl ⟨hval, ?_⟩
    unfold putUser findByIdAndUpdate
    simp only [hval, if_false]

/-- The update validators accept the cast body exactly when every field that
is present is acceptable: a name that is non-empty after trimming, an email
that is non-empty and stays so after lower-casing and trimming, an age that is
null or at least 0. -/
theorem validateUpdate_eq_nil_iff (rt : Runtime) (body : UserBody) :
    validateUpdate (castUser rt body) = [] ↔
      (body.name = .undefined ∨ ∃ n, body.name = .val n ∧ trim n ≠ "")
      ∧ (body.email = .undefined
          ∨ ∃ e, body.email = .val e ∧ e ≠ "" ∧ trim (rt.toLowerCase e) ≠ "")
      ∧ (∀ a, body.age = .val a → 0 ≤ a) := by
  obtain ⟨name, email, age⟩ := body
  have hn : (if castName name = .undefined then [] else validateName (castName name)) = []
      ↔ (name = .undefined ∨ ∃ n, name = .val n ∧ trim n ≠ "") := by
    cases name with
    | undefined => simp [castName]
    | null => simp [castName, validateName, requiredOk]
    | val n => simp [castName, validateName, requiredOk, trimSetter_eq]
  have he : (if castEmail rt email = .undefined then [] else validateEmail (castEmail rt email))
      = [] ↔ (email = .undefined
        ∨ ∃ e, email = .val e ∧ e ≠ "" ∧ trim (rt.toLowerCase e) ≠ "") := by
    cases email with
    | undefined => simp [castEmail]
    | null => simp [castEmail, validateEmail, requiredOk]
    | val e =>
      by_cases h0 : e = ""
      · simp [castEmail, validateEmail, requiredOk, trimSetter, lowercaseSetter, h0]
      · simp [castEmail, validateEmail, requiredOk, trimSetter_eq, lowercaseSetter, h0]
  have ha : (if age = .undefined then [] else validateAge age) = []
      ↔ ∀ a, age = .val a → 0 ≤ a := by
    cases age with
    | undefined => simp
    | null => simp [validateAge, minOk]
    | val a => simp [validateAge, minOk]
  simp only [validateUpdate, castUser, List.append_eq_nil, hn, he, ha, and_assoc]

/-- In a collection with distinct ids, the documents left after removing the
one with id i are the documents with another id. -/
theorem mem_removeFirst_iff {i : ObjectId} {users : List UserDoc} {v : UserDoc}
    (hnodup : (users.map (fun u => u._id)).Nodup) :
    v ∈ removeFirst i users ↔ v ∈ users ∧ v._id ≠ i := by
  constructor
  · intro hv
    exact ⟨(removeFirst_sublist i users).subset hv,
      (findById_eq_none_iff _ _).1 (findById_removeFirst hnodup) v hv⟩
  · intro hv
    exact mem_removeFirst_of_ne hv.1 hv.2

theorem mem_replaceFirst_of_ne {i : ObjectId} {u1 v : UserDoc} {users : List UserDoc}
    (hv : v ∈ users) (hne : v._id ≠ i) : v ∈ replaceFirst i u1 users := by
  induction users with
  | nil => cases hv
  | cons w ws ih =>
    unfold replaceFirst
    rcases List.mem_cons.1 hv with rfl | hmem
    · simp [hne]
    · split
      · exact List.mem_cons_of_mem _ hmem
      · exact List.mem_cons_of_mem _ (ih hmem)

theorem length_replaceFirst (i : ObjectId) (u1 : UserDoc) (users : List UserDoc) :
    (replaceFirst i u1 users).length = users.length := by
  induction users with
  | nil => rfl
  | cons w ws ih =>
    unfold replaceFirst
    split
    · rfl
    · simp [ih]

/-- The email a User has after the `$set` of the cast body. -/
theorem applySet_email (rt : Runtime) (body : UserBody) (now : Nat) (u : UserDoc) :
    (applySet (castUser rt body) now u).email
      = match body.email with
        | .val e => trimSetter (lowercaseSetter rt e)
        | _ => u.email := by
  cases h : body.email <;> simp [applySet, castUser, castEmail, h]

/-! ## Lemmas on bulk inserts -/

theorem insertUsersOrdered_none {users new users1 : List UserDoc}
    (h : insertUsersOrdered users new = (none, users1)) : users1 = users ++ new := by
  induction new generalizing users with
  | nil =>
    simp only [insertUsersOrdered, Prod.mk.injEq, true_and] at h
    simp [h]
  | cons u rest ih =>
    unfold insertUsersOrdered at h
    split at h
    next us hins =>
      rw [ih h, (insertUserDoc_ok hins).1]
      simp
    next e hins => simp at h

theorem insertPostDoc_ok {posts posts1 : List PostDoc} {p : PostDoc}
    (h : insertPostDoc posts p = .ok posts1) : posts1 = posts ++ [p] := by
  unfold insertPostDoc at h
  split at h
  · cases h
  · cases h; rfl

theorem insertPostsOrdered_none {posts new posts1 : List PostDoc}
    (h : insertPostsOrdered posts new = (none, posts1)) : posts1 = posts ++ new := by
  induction new generalizing posts with
  | nil =>
    simp only [insertPostsOrdered, Prod.mk.injEq, true_and] at h
    simp [h]
  | cons u rest ih =>
    unfold insertPostsOrdered at h
    split at h
    next us hins =>
      rw [ih h, insertPostDoc_ok hins]
      simp
    next e hins => simp at h

theorem insertManyUsers_ok {rt : Runtime} {docs : List (UserBody × Nat)} {s s1 : Store}
    {us : List UserDoc} (h : insertManyUsers rt docs s = (.ok us, s1)) :
    us = mkUsers rt s.nextId docs
      ∧ s1 = { users := s.users ++ us, posts := s.posts, nextId := s.nextId + docs.length } := by
  unfold insertManyUsers at h
  simp only at h
  split at h
  next => simp at h
  next =>
    split at h
    next users hins =>
      simp only [Prod.mk.injEq, Except.ok.injEq] at h
      obtain ⟨h1, h2⟩ := h
      subst h1
      refine ⟨rfl, ?_⟩
      rw [← h2, insertUsersOrdered_none hins]
    next e users hins => simp at h

theorem insertManyPosts_ok {docs : List (PostFields × Nat)} {s s1 : Store}
    {ps : List PostDoc} (h : insertManyPosts docs s = (.ok ps, s1)) :
    ps = mkPosts s.nextId docs
      ∧ s1 = { users := s.users, posts := s.posts ++ ps, nextId := s.nextId + docs.length } := by
  unfold insertManyPosts at h
  simp only at h
  split at h
  next => simp at h
  next =>
    split at h
    next posts hins =>
      simp only [Prod.mk.injEq, Except.ok.injEq] at h
      obtain ⟨h1, h2⟩ := h
      subst h1
      refine ⟨rfl, ?_⟩
      rw [← h2, insertPostsOrdered_none hins]
    next e posts hins => simp at h

/-- What a successful seed leaves in the store. -/
theorem postSeed_ok {rt : Runtime} {clock : SeedClock} {s : Store}
    (h : (postSeed rt clock s).1.success = true) :
    (postSeed rt clock s).2.users = mkUsers rt s.nextId (seedUsers clock)
    ∧ (postSeed rt clock s).2.posts
        = mkPosts (s.nextId + 3) (seedPosts clock s.nextId (s.nextId + 1)) := by
  unfold postSeed at h ⊢
  simp only at h ⊢
  cases hu : insertManyUsers rt (seedUsers clock) { users := [], posts := [], nextId := s.nextId }
    with
  | mk r s3 =>
    rw [hu] at h
    cases r with
    | error e => simp [failure] at h
    | ok us =>
      obtain ⟨hus, hs3⟩ := insertManyUsers_ok hu
      obtain ⟨a, b, c, habc, ha, hb⟩ : ∃ a b c, us = [a, b, c] ∧ a._id = s.nextId
          ∧ b._id = s.nextId + 1 := by
        rw [hus]
        exact ⟨_, _, _, rfl, rfl, rfl⟩
      subst habc
      simp only [ha, hb] at h ⊢
      cases hp : insertManyPosts (seedPosts clock s.nextId (s.nextId + 1)) s3 with
      | mk r4 s4 =>
        rw [hp] at h
        cases r4 with
        | error e => simp [failure] at h
        | ok ps =>
          obtain ⟨hps, hs4⟩ := insertManyPosts_ok hp
          simp only
          rw [hs4, hs3, hps, hs3]
          exact ⟨by simp [← hus], by simp [seedUsers]⟩

theorem insertUsersOrdered_of_nodup {users new : List UserDoc}
    (h1 : ((users ++ new).map (fun u => u._id)).Nodup)
    (h2 : ((users ++ new).map (fun u => u.email)).Nodup) :
    insertUsersOrdered users new = (none, users ++ new) := by
  induction new generalizing users with
  | nil => simp [insertUsersOrdered]
  | cons u rest ih =>
    have e : users ++ u :: rest = (users ++ [u]) ++ rest := by simp
    rw [e] at h1 h2
    have hid : ∀ v ∈ users, v._id ≠ u._id := by
      intro v hv hvu
      have := h1.sublist ((List.sublist_append_left _ rest).map _)
      rw [List.map_append, List.nodup_append] at this
      exact this.2.2 (List.mem_map.2 ⟨v, hv, rfl⟩) (by simp [hvu])
    have hem : ∀ v ∈ users, v.email ≠ u.email := by
      intro v hv hvu
      have := h2.sublist ((List.sublist_append_left _ rest).map _)
      rw [List.map_append, List.nodup_append] at this
      exact this.2.2 (List.mem_map.2 ⟨v, hv, rfl⟩) (by simp [hvu])
    unfold insertUsersOrdered
    rw [insertUserDoc_of_fresh hid hem]
    simp only
    rw [ih h1 h2, e]

theorem insertPostsOrdered_of_nodup {posts new : List PostDoc}
    (h1 : ((posts ++ new).map (fun p => p._id)).Nodup) :
    insertPostsOrdered posts new = (none, posts ++ new) := by
  induction new generalizing posts with
  | nil => simp [insertPostsOrdered]
  | cons p rest ih =>
    have e : posts ++ p :: rest = (posts ++ [p]) ++ rest := by simp
    rw [e] at h1
    have hid : ¬ ∃ q ∈ posts, q._id = p._id := by
      rintro ⟨v, hv, hvu⟩
      have := h1.sublist ((List.sublist_append_left _ rest).map _)
      rw [List.map_append, List.nodup_append] at this
      exact this.2.2 (List.mem_map.2 ⟨v, hv, rfl⟩) (by simp [hvu])
    unfold insertPostsOrdered insertPostDoc
    rw [if_neg hid]
    simp only
    rw [ih h1, e]

/-! ## The invariants of reachable stores -/

theorem wellFormed_bump {s : Store} (k : Nat) (h : WellFormed s) :
    WellFormed { users := s.users, posts := s.posts, nextId := s.nextId + k } := by
  obtain ⟨h1, h2, h3, h4, h5⟩ := h
  exact ⟨h1, h2, h3, fun u hu => Nat.lt_of_lt_of_le (h4 u hu) (Nat.le_add_right _ _),
    fun p hp => Nat.lt_of_lt_of_le (h5 p hp) (Nat.le_add_right _ _)⟩

theorem nodup_map_append_singleton {α β : Type} (f : α → β) {l : List α} {a : α}
    (h : (l.map f).Nodup) (ha : ∀ b ∈ l, f b ≠ f a) : ((l ++ [a]).map f).Nodup := by
  rw [List.map_append, List.nodup_append]
  refine ⟨h, by simp, ?_⟩
  intro x hx hx1
  obtain ⟨b, hb, rfl⟩ := List.mem_map.1 hx
  simp only [List.map_cons, List.map_nil, List.mem_singleton] at hx1
  exact ha b hb hx1

theorem postUsers_wellFormed (rt : Runtime) (now : Nat) (body : UserBody) {s : Store}
    (h : WellFormed s) : WellFormed (postUsers rt now body s).2 := by
  unfold postUsers
  split
  · exact h
  · cases hs : saveUser rt now body s with
    | mk r s1 =>
      cases r with
      | error e =>
        have hs1 := saveUser_error hs
        have : WellFormed s1 := by rw [hs1]; exact wellFormed_bump 1 h
        simp only
        split <;> exact this
      | ok u =>
        obtain ⟨_, hu, hid, hem, hs1⟩ := saveUser_ok hs
        have huid : u._id = s.nextId := by rw [hu]; rfl
        obtain ⟨h1, h2, h3, h4, h5⟩ := h
        simp only
        rw [hs1]
        refine ⟨nodup_map_append_singleton _ h1 (by rw [huid]; exact hid),
          nodup_map_append_singleton _ h2 hem, h3, ?_, ?_⟩
        · intro v hv
          rcases List.mem_append.1 hv with hv | hv
          · exact Nat.lt_succ_of_lt (h4 v hv)
          · simp only [List.mem_singleton] at hv
            rw [hv, huid]; exact Nat.lt_succ_self _
        · intro p hp
          exact Nat.lt_succ_of_lt (h5 p hp)

theorem deleteUser_wellFormed (rt : Runtime) (id : IdString) {s : Store}
    (h : WellFormed s) : WellFormed (deleteUser rt id s).2 := by
  obtain ⟨h1, h2, h3, h4, h5⟩ := h
  cases id with
  | malformed raw => exact ⟨h1, h2, h3, h4, h5⟩
  | oid i =>
    cases hf : findById s.users i with
    | none =>
      simp only [deleteUser, findByIdAndDelete, hf]
      exact ⟨h1, h2, h3, h4, h5⟩
    | some v =>
      simp only [deleteUser, findByIdAndDelete, hf]
      have hsub := removeFirst_sublist i s.users
      exact ⟨h1.sublist (hsub.map _), h2.sublist (hsub.map _), h3,
        fun u hu => h4 u (hsub.subset hu), h5⟩

theorem mem_replaceFirst {i : ObjectId} {u1 v : UserDoc} {users : List UserDoc}
    (h : v ∈ replaceFirst i u1 users) : v = u1 ∨ v ∈ removeFirst i users := by
  induction users with
  | nil => simp [replaceFirst] at h
  | cons w ws ih =>
    unfold replaceFirst at h
    unfold removeFirst
    split at h
    next hw =>
      rw [if_pos hw]
      rcases List.mem_cons.1 h with h | h
      · exact Or.inl h
      · exact Or.inr h
    next hw =>
      rw [if_neg hw]
      rcases List.mem_cons.1 h with h | h
      · exact Or.inr (by rw [h]; exact List.mem_cons_self _ _)
      · rcases ih h with h | h
        · exact Or.inl h
        · exact Or.inr (List.mem_cons_of_mem _ h)

theorem map_id_replaceFirst {i : ObjectId} {u1 : UserDoc} (users : List UserDoc)
    (h1 : u1._id = i) :
    (replaceFirst i u1 users).map (fun u => u._id) = users.map (fun u => u._id) := by
  induction users with
  | nil => rfl
  | cons w ws ih =>
    unfold replaceFirst
    split
    next hw => simp [h1, hw]
    next hw => simp [ih]

theorem nodup_email_replaceFirst {i : ObjectId} {u u1 : UserDoc} {users : List UserDoc}
    (hf : findById users i = some u)
    (hn : (users.map (fun u => u.email)).Nodup)
    (hfree : u1.email = u.email ∨ ∀ v ∈ removeFirst i users, v.email ≠ u1.email) :
    ((replaceFirst i u1 users).map (fun u => u.email)).Nodup := by
  induction users with
  | nil => simp [findById] at hf
  | cons w ws ih =>
    have hn1 : (∀ x ∈ ws, ¬ w.email = x.email) ∧ (ws.map (fun u => u.email)).Nodup := by
      have := List.nodup_cons.1 (show (w.email :: ws.map (fun u => u.email)).Nodup from hn)
      exact ⟨fun x hx hwx => this.1 (List.mem_map.2 ⟨x, hx, hwx.symm⟩), this.2⟩
    by_cases hw : w._id = i
    · have hwu : w = u := by simpa [findById, List.find?_cons, hw] using hf
      subst hwu
      have hrem : removeFirst i (w :: ws) = ws := by simp [removeFirst, hw]
      have hrep : replaceFirst i u1 (w :: ws) = u1 :: ws := by simp [replaceFirst, hw]
      rw [hrep, List.map_cons, List.nodup_cons]
      refine ⟨?_, hn1.2⟩
      intro hmem
      obtain ⟨x, hx, hxe⟩ := List.mem_map.1 hmem
      rcases hfree with hfree | hfree
      · exact hn1.1 x hx (by rw [← hfree, hxe])
      · rw [hrem] at hfree
        exact hfree x hx hxe
    · have hfs : findById ws i = some u := by
        simpa [findById, List.find?_cons, hw] using hf
      have hrem : removeFirst i (w :: ws) = w :: removeFirst i ws := by simp [removeFirst, hw]
      have hrep : replaceFirst i u1 (w :: ws) = w :: replaceFirst i u1 ws := by
        simp [replaceFirst, hw]
      rw [hrep, List.map_cons, List.nodup_cons]
      have hfree1 : u1.email = u.email ∨ ∀ v ∈ removeFirst i ws, v.email ≠ u1.email := by
        rcases hfree with hfree | hfree
        · exact Or.inl hfree
        · exact Or.inr (fun v hv => hfree v (by rw [hrem]; exact List.mem_cons_of_mem _ hv))
      refine ⟨?_, ih hfs hn1.2 hfree1⟩
      intro hmem
      obtain ⟨x, hx, hxe⟩ := List.mem_map.1 hmem
      rcases mem_replaceFirst hx with hx1 | hx1
      · subst hx1
        rcases hfree with hfree | hfree
        · exact hn1.1 u (findById_some hfs).2 (by rw [← hfree, hxe])
        · exact hfree w (by rw [hrem]; exact List.mem_cons_self _ _) hxe.symm
      · exact hn1.1 x ((removeFirst_sublist i ws).subset hx1) hxe.symm

theorem putUser_wellFormed (rt : Runtime) (now : Nat) (id : IdString) (body : UserBody)
    {s : Store} (h : WellFormed s) : WellFormed (putUser rt now id body s).2 := by
  cases id with
  | malformed raw => exact h
  | oid i =>
    cases hf : findById s.users i with
    | none =>
      unfold putUser findByIdAndUpdate
      simp only [hf]
      by_cases hv : validateUpdate (castUser rt body) = []
      · simp only [hv, if_true]; exact h
      · simp only [hv, if_false]; exact h
    | some u =>
      rcases putUser_cases rt now i body s u hf with ⟨_, hp⟩ | ⟨_, _, hp⟩ | ⟨_, hdup, hp⟩
      · rw [hp]; exact h
      · rw [hp]; exact h
      · rw [hp]
        obtain ⟨h1, h2, h3, h4, h5⟩ := h
        have hid : (applySet (castUser rt body) now u)._id = i := (findById_some hf).1
        have hfree : (applySet (castUser rt body) now u).email = u.email
            ∨ ∀ v ∈ removeFirst i s.users, v.email ≠ (applySet (castUser rt body) now u).email := by
          by_cases he : (applySet (castUser rt body) now u).email = u.email
          · exact Or.inl he
          · exact Or.inr (fun v hv hve => hdup ⟨he, v, hv, hve⟩)
        refine ⟨?_, nodup_email_replaceFirst hf h2 hfree, h3, ?_, h5⟩
        · simp only
          rw [map_id_replaceFirst _ hid]
          exact h1
        · intro v hv
          rcases mem_replaceFirst hv with hv1 | hv1
          · rw [hv1, hid, ← (findById_some hf).1]
            exact h4 u (findById_some hf).2
          · exact h4 v ((removeFirst_sublist i s.users).subset hv1)

theorem savePost_wellFormed (now : Nat) (title content : ReqField String) (author : ObjectId)
    {s : Store} (h : WellFormed s) : WellFormed (savePost now title content author s).2 := by
  unfold savePost
  simp only
  split
  · split
    next posts hins =>
      obtain ⟨h1, h2, h3, h4, h5⟩ := h
      have hfresh : ∀ q ∈ s.posts, q._id ≠ s.nextId := fun q hq => Nat.ne_of_lt (h5 q hq)
      rw [insertPostDoc_ok hins]
      refine ⟨h1, h2, nodup_map_append_singleton _ h3 hfresh,
        fun u hu => Nat.lt_succ_of_lt (h4 u hu), ?_⟩
      intro p hp
      rcases List.mem_append.1 hp with hp | hp
      · exact Nat.lt_succ_of_lt (h5 p hp)
      · simp only [List.mem_singleton] at hp
        rw [hp]; exact Nat.lt_succ_self _
    next => exact wellFormed_bump 1 h
  · exact wellFormed_bump 1 h

theorem postPosts_wellFormed (rt : Runtime) (now : Nat) (body : PostBody) {s : Store}
    (h : WellFormed s) : WellFormed (postPosts rt now body s).2 := by
  unfold postPosts
  split
  · exact h
  · split
    next author _ =>
      split
      · exact h
      · have := savePost_wellFormed now body.title body.content author h
        cases hs : savePost now body.title body.content author s with
        | mk r s1 =>
          rw [hs] at this
          cases r <;> exact this
    · exact h
    · exact h

theorem insertUsersOrdered_spec (users new : List UserDoc)
    (h1 : (users.map (fun u => u._id)).Nodup) (h2 : (users.map (fun u => u.email)).Nodup) :
    ((insertUsersOrdered users new).2.map (fun u => u._id)).Nodup
    ∧ ((insertUsersOrdered users new).2.map (fun u => u.email)).Nodup
    ∧ ∀ u ∈ (insertUsersOrdered users new).2, u ∈ users ∨ u ∈ new := by
  induction new generalizing users with
  | nil => exact ⟨h1, h2, fun u hu => Or.inl hu⟩
  | cons v rest ih =>
    unfold insertUsersOrdered
    split
    next users1 hins =>
      obtain ⟨he, hid, hem⟩ := insertUserDoc_ok hins
      subst he
      obtain ⟨k1, k2, k3⟩ := ih (users ++ [v]) (nodup_map_append_singleton _ h1 hid)
        (nodup_map_append_singleton _ h2 hem)
      refine ⟨k1, k2, ?_⟩
      intro u hu
      rcases k3 u hu with hu | hu
      · rcases List.mem_append.1 hu with hu | hu
        · exact Or.inl hu
        · exact Or.inr (by simp only [List.mem_singleton] at hu; rw [hu]; exact List.mem_cons_self _ _)
      · exact Or.inr (List.mem_cons_of_mem _ hu)
    next e hins => exact ⟨h1, h2, fun u hu => Or.inl hu⟩

theorem insertPostsOrdered_spec (posts new : List PostDoc)
    (h1 : (posts.map (fun p => p._id)).Nodup) :
    ((insertPostsOrdered posts new).2.map (fun p => p._id)).Nodup
    ∧ ∀ p ∈ (insertPostsOrdered posts new).2, p ∈ posts ∨ p ∈ new := by
  induction new generalizing posts with
  | nil => exact ⟨h1, fun u hu => Or.inl hu⟩
  | cons v rest ih =>
    unfold insertPostsOrdered
    split
    next posts1 hins =>
      have hid : ∀ q ∈ posts, q._id ≠ v._id := by
        intro q hq hqv
        unfold insertPostDoc at hins
        rw [if_pos ⟨q, hq, hqv⟩] at hins
        cases hins
      have he := insertPostDoc_ok hins
      subst he
      obtain ⟨k1, k3⟩ := ih (posts ++ [v]) (nodup_map_append_singleton _ h1 hid)
      refine ⟨k1, ?_⟩
      intro u hu
      rcases k3 u hu with hu | hu
      · rcases List.mem_append.1 hu with hu | hu
        · exact Or.inl hu
        · exact Or.inr (by simp only [List.mem_singleton] at hu; rw [hu]; exact List.mem_cons_self _ _)
      · exact Or.inr (List.mem_cons_of_mem _ hu)
    next e hins => exact ⟨h1, fun u hu => Or.inl hu⟩

theorem mkUsers_id_lt (rt : Runtime) (i : ObjectId) (docs : List (UserBody × Nat)) :
    ∀ u ∈ mkUsers rt i docs, u._id < i + docs.length := by
  induction docs generalizing i with
  | nil => intro u hu; simp [mkUsers] at hu
  | cons d rest ih =>
    intro u hu
    obtain ⟨b, now⟩ := d
    simp only [mkUsers, List.mem_cons] at hu
    rcases hu with rfl | hu
    · simp [newUser]
    · have := ih (i + 1) u hu
      rw [List.length_cons, ← Nat.add_assoc, Nat.add_right_comm]
      exact this

theorem mkPosts_id_lt (i : ObjectId) (docs : List (PostFields × Nat)) :
    ∀ p ∈ mkPosts i docs, p._id < i + docs.length := by
  induction docs generalizing i with
  | nil => intro u hu; simp [mkPosts] at hu
  | cons d rest ih =>
    intro u hu
    obtain ⟨b, now⟩ := d
    simp only [mkPosts, List.mem_cons] at hu
    rcases hu with rfl | hu
    · simp [newPost]
    · have := ih (i + 1) u hu
      rw [List.length_cons, ← Nat.add_assoc, Nat.add_right_comm]
      exact this

theorem insertManyUsers_wellFormed (rt : Runtime) (docs : List (UserBody × Nat)) {s : Store}
    (h : WellFormed s) : WellFormed (insertManyUsers rt docs s).2 := by
  obtain ⟨h1, h2, h3, h4, h5⟩ := h
  have hspec := insertUsersOrdered_spec s.users (mkUsers rt s.nextId docs) h1 h2
  have hbump : WellFormed ⟨s.users, s.posts, s.nextId + docs.length⟩ :=
    wellFormed_bump _ ⟨h1, h2, h3, h4, h5⟩
  have hres : WellFormed ⟨(insertUsersOrdered s.users (mkUsers rt s.nextId docs)).2, s.posts,
      s.nextId + docs.length⟩ := by
    refine ⟨hspec.1, hspec.2.1, h3, ?_, hbump.2.2.2.2⟩
    intro u hu
    rcases hspec.2.2 u hu with hu | hu
    · exact hbump.2.2.2.1 u hu
    · exact mkUsers_id_lt rt _ _ u hu
  unfold insertManyUsers
  simp only
  split
  · exact hbump
  · cases hins : insertUsersOrdered s.users (mkUsers rt s.nextId docs) with
    | mk r users =>
      rw [hins] at hres
      cases r <;> exact hres

theorem insertManyPosts_wellFormed (docs : List (PostFields × Nat)) {s : Store}
    (h : WellFormed s) : WellFormed (insertManyPosts docs s).2 := by
  obtain ⟨h1, h2, h3, h4, h5⟩ := h
  have hspec := insertPostsOrdered_spec s.posts (mkPosts s.nextId docs) h3
  have hbump : WellFormed ⟨s.users, s.posts, s.nextId + docs.length⟩ :=
    wellFormed_bump _ ⟨h1, h2, h3, h4, h5⟩
  have hres : WellFormed ⟨s.users, (insertPostsOrdered s.posts (mkPosts s.nextId docs)).2,
      s.nextId + docs.length⟩ := by
    refine ⟨h1, h2, hspec.1, hbump.2.2.2.1, ?_⟩
    intro u hu
    rcases hspec.2 u hu with hu | hu
    · exact hbump.2.2.2.2 u hu
    · exact mkPosts_id_lt _ _ u hu
  unfold insertManyPosts
  simp only
  split
  · exact hbump
  · cases hins : insertPostsOrdered s.posts (mkPosts s.nextId docs) with
    | mk r posts =>
      rw [hins] at hres
      cases r <;> exact hres

theorem wellFormed_cleared (n : ObjectId) :
    WellFormed { users := [], posts := [], nextId := n } := by
  simp [WellFormed]

/-- Seeding clears both collections first, so the store it leaves satisfies
the invariants whatever the store it started from. -/
theorem postSeed_wellFormed (rt : Runtime) (clock : SeedClock) (s : Store) :
    WellFormed (postSeed rt clock s).2 := by
  have h0 : WellFormed { users := [], posts := [], nextId := s.nextId } :=
    wellFormed_cleared s.nextId
  have h3 := insertManyUsers_wellFormed rt (seedUsers clock) h0
  unfold postSeed
  simp only
  cases hu : insertManyUsers rt (seedUsers clock) { users := [], posts := [], nextId := s.nextId }
    with
  | mk r s3 =>
    rw [hu] at h3
    cases r with
    | error e => exact h3
    | ok us =>
      simp only
      split
      next u0 u1 tail =>
        have h4 := insertManyPosts_wellFormed (seedPosts clock u0._id u1._id) h3
        cases hp : insertManyPosts (seedPosts clock u0._id u1._id) s3 with
        | mk r4 s4 =>
          rw [hp] at h4
          cases r4 <;> exact h4
      next => exact h3

/-- Every store the API reaches from the empty database satisfies the
invariants: User ids, User emails and Post ids are unique and every id in use
is older than the next generated one. -/
theorem reachable_wellFormed {rt : Runtime} {s : Store} (h : Reachable rt s) : WellFormed s := by
  induction h with
  | empty => exact wellFormed_cleared 0
  | create now body _ ih => exact postUsers_wellFormed rt now body ih
  | update now id body _ ih => exact putUser_wellFormed rt now id body ih
  | delete id _ ih => exact deleteUser_wellFormed rt id ih
  | publish now body _ ih => exact postPosts_wellFormed rt now body ih
  | seed clock _ _ => exact postSeed_wellFormed rt clock _

/-! ## C1: the same create request twice -/

/-- C1, as stated, fails: non-empty is not what the schema asks for. On the
empty database a name made of one blank (non-empty, and the email is held by
nobody) is trimmed to the empty string and rejected by the required validator,
and a negative age is rejected by the min validator; both first requests are
answered 500 and not 201. -/
theorem postUsers_twice_counterexample :
    (" " ≠ "" ∧ "a@x.com" ≠ "" ∧ ∀ u ∈ emptyStore.users, u.email ≠ "a@x.com")
    ∧ (postUsers production 0
        { name := .val " ", email := .val "a@x.com", age := .undefined } emptyStore).1.status = 500
    ∧ (postUsers production 0
        { name := .val "Ann", email := .val "a@x.com", age := .val (-1) }
        emptyStore).1.status = 500 := by
  decide

/-- C1, amended. Let the request carry a name that is non-empty after trimming,
an email that is non-empty and stays so after lower-casing and trimming, and
an age that is absent, null or at least 0; let no User hold the lower-cased,
trimmed email and let the id the driver generates be fresh. Then the first
POST /api/users answers 201 with success true, the second answers 400 with
success false and message Email already exists, and afterwards exactly one
User holds that email. (The id is fresh in every reachable store, by
`reachable_wellFormed`.) -/
theorem postUsers_twice (rt : Runtime) (now now1 : Nat) (body : UserBody) (s : Store)
    (name email : String)
    (hname : body.name = .val name) (hemail : body.email = .val email)
    (hnameOk : trim name ≠ "")
    (hemailNe : email ≠ "") (hemailOk : trim (rt.toLowerCase email) ≠ "")
    (hage : ∀ n, body.age = .val n → 0 ≤ n)
    (hfresh : ∀ u ∈ s.users, u._id ≠ s.nextId)
    (hnew : ∀ u ∈ s.users, u.email ≠ trim (rt.toLowerCase email)) :
    (postUsers rt now body s).1.status = 201
    ∧ (postUsers rt now body s).1.success = true
    ∧ (postUsers rt now1 body (postUsers rt now body s).2).1
        = { status := 400, success := false, message := some "Email already exists",
            count := none, data := none, error := none }
    ∧ ((postUsers rt now1 body (postUsers rt now body s).2).2.users.filter
        (fun u => decide (u.email = trim (rt.toLowerCase email)))).length = 1 := by
  have hnameNe : name ≠ "" := fun h => hnameOk (by rw [h, trim_empty])
  have hguard : (!truthy body.name || !truthy body.email) = false := by
    simp [hname, hemail, truthy, hnameNe, hemailNe]
  have hcastE : castEmail rt body.email = .val (trim (rt.toLowerCase email)) := by
    simp [hemail, castEmail, trimSetter_eq, lowercaseSetter_eq rt hemailNe]
  have hminOk : minOk body.age = true := by
    cases ha : body.age with
    | undefined => rfl
    | null => rfl
    | val n => simpa [minOk] using hage n ha
  have hval : validateDocument (castUser rt body) = [] := by
    simp [validateDocument, castUser, validateName, validateEmail, validateAge, hname, castName,
      hcastE, requiredOk, trimSetter_eq, hnameOk, hemailOk, hminOk]
  have hmail : (castEmail rt body.email).getD "" = trim (rt.toLowerCase email) := by
    rw [hcastE]; rfl
  have hsave := saveUser_of_valid rt now hval hfresh (by rw [hmail]; exact hnew)
  have hfirst : postUsers rt now body s
      = (succeeded 201 (some "User created successfully")
          (some (.user (newUser rt now body s.nextId))),
         { users := s.users ++ [newUser rt now body s.nextId], posts := s.posts,
           nextId := s.nextId + 1 }) := by
    unfold postUsers
    rw [hguard, hsave]
    rfl
  have hnewEmail : (newUser rt now body s.nextId).email = trim (rt.toLowerCase email) := hmail
  -- the second request
  have hsecond : ∃ s2 : Store, postUsers rt now1 body (postUsers rt now body s).2
      = (failure 400 "Email already exists" none, s2)
      ∧ s2.users = s.users ++ [newUser rt now body s.nextId] := by
    rw [hfirst]
    unfold postUsers
    rw [hguard]
    simp only [Bool.false_eq_true, if_false]
    cases hs : saveUser rt now1 body
        { users := s.users ++ [newUser rt now body s.nextId], posts := s.posts,
          nextId := s.nextId + 1 } with
    | mk r s2 =>
      cases r with
      | ok u =>
        exfalso
        have h := (saveUser_ok hs).2.2.2.1 (newUser rt now body s.nextId) (by simp)
        apply h
        rw [(saveUser_ok hs).2.1, hnewEmail]
        exact hmail.symm
      | error e =>
        have hs2 := saveUser_error hs
        have hcode : e.code = some 11000 := by
          unfold saveUser at hs
          simp only [hval, if_true] at hs
          split at hs
          next => simp at hs
          next e1 hins =>
            simp only [Prod.mk.injEq, Except.error.injEq] at hs
            rw [← hs.1]
            exact insertUserDoc_error_code hins
        refine ⟨s2, ?_, by rw [hs2]⟩
        simp [hcode]
  obtain ⟨s2, h2, husers⟩ := hsecond
  rw [h2, hfirst]
  refine ⟨rfl, rfl, rfl, ?_⟩
  simp only [husers, List.filter_append]
  have hnone : s.users.filter (fun u => decide (u.email = trim (rt.toLowerCase email))) = [] := by
    rw [List.filter_eq_nil_iff]
    intro u hu
    simpa using hnew u hu
  rw [hnone]
  simp [List.filter, hnewEmail]

/-- Witness of C1, amended: Ann is created twice on the empty database. -/
theorem postUsers_twice_witness :
    (postUsers production 1 { name := .val " Ann ", email := .val "Ann@X.com", age := .val 30 }
        emptyStore).1.status = 201
    ∧ (postUsers production 1 { name := .val " Ann ", email := .val "Ann@X.com", age := .val 30 }
        emptyStore).1.success = true
    ∧ (postUsers production 2 { name := .val " Ann ", email := .val "Ann@X.com", age := .val 30 }
        (postUsers production 1 { name := .val " Ann ", email := .val "Ann@X.com", age := .val 30 }
          emptyStore).2).1
        = { status := 400, success := false, message := some "Email already exists",
            count := none, data := none, error := none }
    ∧ ((postUsers production 2 { name := .val " Ann ", email := .val "Ann@X.com", age := .val 30 }
        (postUsers production 1 { name := .val " Ann ", email := .val "Ann@X.com", age := .val 30 }
          emptyStore).2).2.users.filter
        (fun u => decide (u.email = trim (production.toLowerCase "Ann@X.com")))).length = 1 :=
  postUsers_twice production 1 2 { name := .val " Ann ", email := .val "Ann@X.com", age := .val 30 }
    emptyStore " Ann " "Ann@X.com" rfl rfl (by decide) (by decide) (by decide)
    (by intro n h; cases h; decide) (by decide) (by decide)

/-! ## C2: a Post whose author does not exist -/

/-- C2, as stated, fails for an author that is not a well-formed id. On the
seeded database the author abc corresponds to no User, and the request is
answered 500 with message Failed to create post and the text of the CastError,
not 400 with Author not found. -/
theorem postPosts_unknown_author_counterexample :
    (postPosts production 9 ⟨.val "T", .val "C", .val (.malformed "abc")⟩
        seeded).1
      = { status := 500, success := false, message := some "Failed to create post",
          count := none, data := none,
          error := some
            "Cast to ObjectId failed for value \"abc\" (type string) at path \"_id\" for model \"User\"" } := by
  decide

/-- C2, amended. Take a create-Post request with non-empty title and content.
If its author is a well-formed id held by no User, the answer is status 400,
success false, message Author not found. If its author is a non-empty string
that is not a well-formed id, the answer is status 500, success false, message
Failed to create post. In both cases the store is left as it was, so GET
/api/posts answers afterwards what it answered before. -/
theorem postPosts_unknown_author (rt : Runtime) (now : Nat) (body : PostBody) (s : Store)
    (htitle : truthy body.title = true) (hcontent : truthy body.content = true) :
    (∀ author, body.author = .val (.oid author) → (∀ u ∈ s.users, u._id ≠ author) →
      postPosts rt now body s
        = ({ status := 400, success := false, message := some "Author not found",
             count := none, data := none, error := none }, s)
      ∧ (getPosts rt (postPosts rt now body s).2).1 = (getPosts rt s).1)
    ∧ (∀ raw, body.author = .val (.malformed raw) → raw ≠ "" →
      postPosts rt now body s
        = ({ status := 500, success := false, message := some "Failed to create post",
             count := none, data := none,
             error := some (castError raw "_id" "User").message }, s)
      ∧ (getPosts rt (postPosts rt now body s).2).1 = (getPosts rt s).1) := by
  constructor
  · intro author hbody hauthor
    have hfind : findById s.users author = none := (findById_eq_none_iff _ _).2 hauthor
    have h : postPosts rt now body s = (failure 400 "Author not found" none, s) := by
      simp [postPosts, truthyId, htitle, hcontent, hbody, hfind]
    rw [h]
    exact ⟨rfl, rfl⟩
  · intro raw hbody hraw
    have h : postPosts rt now body s
        = (failure 500 "Failed to create post" (some (castError raw "_id" "User").message),
           s) := by
      simp [postPosts, truthyId, htitle, hcontent, hbody, hraw]
    rw [h]
    exact ⟨rfl, rfl⟩

/-- Witness of C2, amended: an unknown author on the seeded database. -/
theorem postPosts_unknown_author_witness :
    postPosts production 9 ⟨.val "T", .val "C", .val (.oid 7)⟩
        seeded
      = ({ status := 400, success := false, message := some "Author not found",
           count := none, data := none, error := none },
         seeded)
    ∧ (getPosts production (postPosts production 9 ⟨.val "T", .val "C", .val (.oid 7)⟩
        seeded).2).1
      = (getPosts production seeded).1 :=
  (postPosts_unknown_author production 9 ⟨.val "T", .val "C", .val (.oid 7)⟩
    seeded (by decide) (by decide)).1 7 rfl
    (by decide)

/-! ## C3: reading a User back -/

/-- C3, as stated, fails: the name is transformed too. A User created with
the name Ann between two blanks is read back with the name Ann. -/
theorem getUserById_after_create_counterexample :
    (postUsers production 1 { name := .val " Ann ", email := .val "ann@x.com", age := .val 30 }
        emptyStore).1
      = { status := 201, success := true, message := some "User created successfully",
          count := none,
          data := some (.user { _id := 0, name := "Ann", email := "ann@x.com", age := .val 30,
                                createdAt := 1, updatedAt := 1 }),
          error := none }
    ∧ (getUserById production (.oid 0)
        (postUsers production 1 { name := .val " Ann ", email := .val "ann@x.com", age := .val 30 }
          emptyStore).2).1
      = { status := 200, success := true, message := none, count := none,
          data := some (.user { _id := 0, name := "Ann", email := "ann@x.com", age := .val 30,
                                createdAt := 1, updatedAt := 1 }),
          error := none }
    ∧ "Ann" ≠ " Ann " := by
  decide

/-- C3, amended. When POST /api/users answers 201, its data is the created
User, and GET /api/users/:id with the id of that User, on the store the create
left, answers 200 with the same document: its name is the supplied name
trimmed, its email the supplied email lower-cased and trimmed, its age the
supplied age. -/
theorem getUserById_after_create (rt : Runtime) (now : Nat) (body : UserBody) (s : Store)
    (h : (postUsers rt now body s).1.status = 201) :
    ∃ name email u, body.name = .val name ∧ body.email = .val email
      ∧ (postUsers rt now body s).1.data = some (.user u)
      ∧ (getUserById rt (.oid u._id) (postUsers rt now body s).2).1
          = { status := 200, success := true, message := none, count := none,
              data := some (.user u), error := none }
      ∧ u.name = trim name ∧ u.email = trim (rt.toLowerCase email) ∧ u.age = body.age := by
  unfold postUsers at h ⊢
  split at h
  next => simp [failure] at h
  next hg =>
    simp only [Bool.not_eq_true, Bool.or_eq_true, Bool.not_eq_eq_eq_not, Bool.not_true, not_or,
      Bool.not_eq_false] at hg
    obtain ⟨name, hname, hnameNe⟩ := truthy_eq_true hg.1
    obtain ⟨email, hemail, hemailNe⟩ := truthy_eq_true hg.2
    have hg2 : (!truthy body.name || !truthy body.email) = false := by simp [hg.1, hg.2]
    simp only [hg2, Bool.false_eq_true, if_false] at h ⊢
    cases hs : saveUser rt now body s with
    | mk r s1 =>
      rw [hs] at h
      cases r with
      | error e =>
        exfalso
        simp only at h
        split at h <;> simp [failure] at h
      | ok u =>
        obtain ⟨_, hu, hid, _, hs1⟩ := saveUser_ok hs
        refine ⟨name, email, u, hname, hemail, rfl, ?_, ?_, ?_, ?_⟩
        · have huid : u._id = s.nextId := by rw [hu]; rfl
          have hfind : findById (s.users ++ [u]) u._id = some u :=
            findById_append_of_fresh (by rw [huid]; exact hid)
          simp [getUserById, hs1, hfind, succeeded]
        · rw [hu]; simp [newUser, castUser, hname, castName, trimSetter_eq, ReqField.getD]
        · rw [hu]
          simp [newUser, castUser, hemail, castEmail, trimSetter_eq,
            lowercaseSetter_eq rt hemailNe, ReqField.getD]
        · rw [hu]; rfl

/-- Witness of C3, amended. -/
theorem getUserById_after_create_witness :
    ∃ name email u,
      (⟨.val " Ann ", .val "Ann@X.com", .val 30⟩ : UserBody).name = .val name
      ∧ (⟨.val " Ann ", .val "Ann@X.com", .val 30⟩ : UserBody).email = .val email
      ∧ (postUsers production 1 ⟨.val " Ann ", .val "Ann@X.com", .val 30⟩ emptyStore).1.data
          = some (.user u)
      ∧ (getUserById production (.oid u._id)
          (postUsers production 1 ⟨.val " Ann ", .val "Ann@X.com", .val 30⟩ emptyStore).2).1
          = { status := 200, success := true, message := none, count := none,
              data := some (.user u), error := none }
      ∧ u.name = trim name ∧ u.email = trim (production.toLowerCase email)
      ∧ u.age = (⟨.val " Ann ", .val "Ann@X.com", .val 30⟩ : UserBody).age :=
  getUserById_after_create production 1 ⟨.val " Ann ", .val "Ann@X.com", .val 30⟩ emptyStore
    (by decide)

/-! ## C4: validation on create and on update -/

/-- The guard of the create handler (lines 116-121), on every store: a request
whose name or email is missing, null or the empty string is answered 400 with
success false and message Name and email are required, and nothing is stored. -/
theorem postUsers_guard (rt : Runtime) (now : Nat) (body : UserBody) (s : Store)
    (h : truthy body.name = false ∨ truthy body.email = false) :
    postUsers rt now body s
      = ({ status := 400, success := false, message := some "Name and email are required",
           count := none, data := none, error := none }, s) := by
  have hg : (!truthy body.name || !truthy body.email) = true := by
    rcases h with h | h <;> simp [h]
  unfold postUsers
  rw [hg]
  rfl

/-- Past the guard, on every store: a create request that the validators of
the schema reject is answered by the catch block, with status 500, and no User
and no Post is stored. -/
theorem postUsers_rejected (rt : Runtime) (now : Nat) (body : UserBody) (s : Store)
    (hname : truthy body.name = true) (hemail : truthy body.email = true)
    (hval : validateDocument (castUser rt body) ≠ []) :
    (postUsers rt now body s).1
      = { status := 500, success := false, message := some "Failed to create user",
          count := none, data := none,
          error := some (validationError "User validation failed"
            (validateDocument (castUser rt body))).message }
    ∧ (postUsers rt now body s).2.users = s.users
    ∧ (postUsers rt now body s).2.posts = s.posts := by
  have hg : (!truthy body.name || !truthy body.email) = false := by simp [hname, hemail]
  have hs : saveUser rt now body s
      = (.error (validationError "User validation failed"
          (validateDocument (castUser rt body))),
         { s with nextId := s.nextId + 1 }) := by
    unfold saveUser
    simp only [hval, if_false]
  unfold postUsers
  rw [hg, hs]
  exact ⟨rfl, rfl, rfl⟩

/-- On every store that holds a User with id i: an update request with a field
that the validators of the schema reject is answered by the catch block, with
status 500, and the store is unchanged. -/
theorem putUser_rejected (rt : Runtime) (now : Nat) (i : ObjectId) (body : UserBody)
    (s : Store) (u : UserDoc) (hu : findById s.users i = some u)
    (hval : validateUpdate (castUser rt body) ≠ []) :
    putUser rt now (.oid i) body s
      = ({ status := 500, success := false, message := some "Failed to update user",
           count := none, data := none,
           error := some (validationError "Validation failed"
             (validateUpdate (castUser rt body))).message }, s) := by
  rcases putUser_cases rt now i body s u hu with ⟨_, h⟩ | ⟨hv, _, _⟩ | ⟨hv, _, _⟩
  · rw [h]; rfl
  · exact absurd hv hval
  · exact absurd hv hval

/-- C4 fails on the code. On the seeded database, PUT /api/users/0 with an
empty name, PUT with a name of one blank, and POST /api/users with a name of
one blank are rejected by the required validator of the schema, and each is
answered 500 with the text of the ValidationError, not 400. For the empty
name the guard of the create handler answers 400, and the store is unchanged
in every case. -/
theorem validation_error_status :
    putUser production 9 (.oid 0) ⟨.val "", .undefined, .undefined⟩ seeded
      = ({ status := 500, success := false, message := some "Failed to update user",
           count := none, data := none,
           error := some "Validation failed: name: Path `name` is required." }, seeded)
    ∧ putUser production 9 (.oid 0) ⟨.val " ", .undefined, .undefined⟩ seeded
      = ({ status := 500, success := false, message := some "Failed to update user",
           count := none, data := none,
           error := some "Validation failed: name: Path `name` is required." }, seeded)
    ∧ (postUsers production 9 ⟨.val " ", .val "a@x.com", .undefined⟩ seeded).1
      = { status := 500, success := false, message := some "Failed to create user",
          count := none, data := none,
          error := some "User validation failed: name: Path `name` is required." }
    ∧ (postUsers production 9 ⟨.val " ", .val "a@x.com", .undefined⟩ seeded).2.users
      = seeded.users
    ∧ postUsers production 9 ⟨.val "", .val "a@x.com", .undefined⟩ seeded
      = ({ status := 400, success := false, message := some "Name and email are required",
           count := none, data := none, error := none }, seeded) := by
  decide

/-! ## C5: raw error text outside development -/

/-- C5 fails on the code. With NODE_ENV=production, GET
/api/users/not-a-valid-id is answered 500 and the body carries, in error, the
message of the CastError that Mongoose threw; the error middleware, given the
same error, answers Something went wrong in production and the message only
in development. -/
theorem getUserById_error_text_in_production :
    production.NODE_ENV ≠ some "development"
    ∧ (getUserById production (.malformed "not-a-valid-id") emptyStore).1
      = { status := 500, success := false, message := some "Failed to fetch user",
          count := none, data := none,
          error := some (castError "not-a-valid-id" "_id" "User").message }
    ∧ (errorMiddleware production (castError "not-a-valid-id" "_id" "User")).error
      = some "Something went wrong"
    ∧ (errorMiddleware development (castError "not-a-valid-id" "_id" "User")).error
      = some (castError "not-a-valid-id" "_id" "User").message := by
  decide

/-! ## C6: seeding -/

/-- With a `toLowerCase` that leaves the three lower-case sample emails as
they are, as the real one does, seeding succeeds from every store. -/
theorem postSeed_succeeds (rt : Runtime) (clock : SeedClock) (s : Store)
    (h0 : rt.toLowerCase "john@example.com" = "john@example.com")
    (h1 : rt.toLowerCase "jane@example.com" = "jane@example.com")
    (h2 : rt.toLowerCase "bob@example.com" = "bob@example.com") :
    (postSeed rt clock s).1
      = { status := 200, success := true, message := some "Database seeded successfully",
          count := none, data := some (.seeded 3 3), error := none } := by
  have t0 : trim "john@example.com" = "john@example.com" := by decide
  have t1 : trim "jane@example.com" = "jane@example.com" := by decide
  have t2 : trim "bob@example.com" = "bob@example.com" := by decide
  have n0 : trim "John Doe" = "John Doe" := by decide
  have n1 : trim "Jane Smith" = "Jane Smith" := by decide
  have n2 : trim "Bob Johnson" = "Bob Johnson" := by decide
  have p0 : trim "First Post" = "First Post" := by decide
  have p1 : trim "Second Post" = "Second Post" := by decide
  have p2 : trim "Third Post" = "Third Post" := by decide
  have hmk : mkUsers rt s.nextId (seedUsers clock)
      = [{ _id := s.nextId, name := "John Doe", email := "john@example.com", age := .val 30,
           createdAt := clock.user0, updatedAt := clock.user0 },
         { _id := s.nextId + 1, name := "Jane Smith", email := "jane@example.com",
           age := .val 25, createdAt := clock.user1, updatedAt := clock.user1 },
         { _id := s.nextId + 2, name := "Bob Johnson", email := "bob@example.com",
           age := .val 35, createdAt := clock.user2, updatedAt := clock.user2 }] := by
    simp [mkUsers, seedUsers, newUser, castUser, castName, castEmail, trimSetter_eq,
      lowercaseSetter, h0, h1, h2, t0, t1, t2, n0, n1, n2, ReqField.getD]
  have hins : insertUsersOrdered [] (mkUsers rt s.nextId (seedUsers clock))
      = (none, mkUsers rt s.nextId (seedUsers clock)) := by
    have := @insertUsersOrdered_of_nodup [] (mkUsers rt s.nextId (seedUsers clock))
      (by rw [hmk]; simp) (by rw [hmk]; simp)
    simpa using this
  have husers : insertManyUsers rt (seedUsers clock)
        { users := [], posts := [], nextId := s.nextId }
      = (.ok (mkUsers rt s.nextId (seedUsers clock)),
         { users := mkUsers rt s.nextId (seedUsers clock), posts := [],
           nextId := s.nextId + 3 }) := by
    unfold insertManyUsers
    have hv : List.find? (fun d => decide (validateDocument d ≠ []))
        ((seedUsers clock).map (fun d => castUser rt d.1)) = none := by
      simp [seedUsers, castUser, castName, castEmail, trimSetter_eq, lowercaseSetter, h0, h1,
        h2, t0, t1, t2, n0, n1, n2, validateDocument, validateName, validateEmail, validateAge,
        requiredOk, minOk]
    simp only [hv, hins]
    rfl
  have hmkp : mkPosts (s.nextId + 3) (seedPosts clock s.nextId (s.nextId + 1))
      = [{ _id := s.nextId + 3, title := "First Post",
           content := "This is the first post content", author := s.nextId,
           createdAt := clock.post0, updatedAt := clock.post0 },
         { _id := s.nextId + 4, title := "Second Post",
           content := "This is the second post content", author := s.nextId + 1,
           createdAt := clock.post1, updatedAt := clock.post1 },
         { _id := s.nextId + 5, title := "Third Post",
           content := "This is the third post content", author := s.nextId,
           createdAt := clock.post2, updatedAt := clock.post2 }] := by
    simp [mkPosts, seedPosts, newPost, castName, trimSetter_eq, p0, p1, p2, ReqField.getD]
  have hinsp : insertPostsOrdered [] (mkPosts (s.nextId + 3)
        (seedPosts clock s.nextId (s.nextId + 1)))
      = (none, mkPosts (s.nextId + 3) (seedPosts clock s.nextId (s.nextId + 1))) := by
    have := @insertPostsOrdered_of_nodup []
      (mkPosts (s.nextId + 3) (seedPosts clock s.nextId (s.nextId + 1)))
      (by rw [hmkp]; simp)
    simpa using this
  have hposts : insertManyPosts (seedPosts clock s.nextId (s.nextId + 1))
        { users := mkUsers rt s.nextId (seedUsers clock), posts := [],
          nextId := s.nextId + 3 }
      = (.ok (mkPosts (s.nextId + 3) (seedPosts clock s.nextId (s.nextId + 1))),
         { users := mkUsers rt s.nextId (seedUsers clock),
           posts := mkPosts (s.nextId + 3) (seedPosts clock s.nextId (s.nextId + 1)),
           nextId := s.nextId + 3 + 3 }) := by
    unfold insertManyPosts
    have hv : List.find? (fun d : PostFields × Nat =>
          decide (validatePost (castName d.1.title) d.1.content ≠ []))
        (seedPosts clock s.nextId (s.nextId + 1)) = none := by
      simp [seedPosts, castName, trimSetter_eq, p0, p1, p2, validatePost, requiredOk]
    simp only [hv, hinsp]
    rfl
  unfold postSeed
  simp only [husers]
  rw [hmk]
  simp only
  rw [← hmk, hposts, hmk, hmkp]
  rfl

/-- C6. Whatever the store held, a seed that succeeds leaves exactly 3 Users
and 3 Posts, every Post written by the first or the second of these Users; so
a second seed that succeeds leaves 3 Users and 3 Posts again, not 6. The seed
does succeed whenever lower-casing leaves the three sample emails, which are
in lower case, as they are. -/
theorem postSeed_resets (rt : Runtime) (clock clock1 : SeedClock) (s : Store) :
    ((postSeed rt clock s).1.success = true →
      (postSeed rt clock s).2.users.length = 3
      ∧ (postSeed rt clock s).2.posts.length = 3
      ∧ ∃ u0 u1 rest, (postSeed rt clock s).2.users = u0 :: u1 :: rest
          ∧ ∀ p ∈ (postSeed rt clock s).2.posts, p.author = u0._id ∨ p.author = u1._id)
    ∧ ((postSeed rt clock1 (postSeed rt clock s).2).1.success = true →
      (postSeed rt clock1 (postSeed rt clock s).2).2.users.length = 3
      ∧ (postSeed rt clock1 (postSeed rt clock s).2).2.posts.length = 3)
    ∧ (rt.toLowerCase "john@example.com" = "john@example.com" →
        rt.toLowerCase "jane@example.com" = "jane@example.com" →
        rt.toLowerCase "bob@example.com" = "bob@example.com" →
        (postSeed rt clock s).1.success = true
        ∧ (postSeed rt clock1 (postSeed rt clock s).2).1.success = true) := by
  have key : ∀ (c : SeedClock) (t : Store), (postSeed rt c t).1.success = true →
      (postSeed rt c t).2.users.length = 3
      ∧ (postSeed rt c t).2.posts.length = 3
      ∧ ∃ u0 u1 rest, (postSeed rt c t).2.users = u0 :: u1 :: rest
          ∧ ∀ p ∈ (postSeed rt c t).2.posts, p.author = u0._id ∨ p.author = u1._id := by
    intro c t h
    obtain ⟨hu, hp⟩ := postSeed_ok h
    rw [hu, hp]
    refine ⟨rfl, rfl, _, _, _, rfl, ?_⟩
    intro p hp
    simp only [seedPosts, mkPosts, List.mem_cons, List.mem_singleton, List.not_mem_nil,
      or_false] at hp
    rcases hp with rfl | rfl | rfl
    · exact Or.inl rfl
    · exact Or.inr rfl
    · exact Or.inl rfl
  refine ⟨key clock s, fun h => ⟨(key clock1 _ h).1, (key clock1 _ h).2.1⟩, ?_⟩
  intro h0 h1 h2
  exact ⟨by rw [postSeed_succeeds rt clock s h0 h1 h2],
    by rw [postSeed_succeeds rt clock1 _ h0 h1 h2]⟩

/-- Witness of C6: two seeds in a row on a database that holds one User. -/
theorem postSeed_resets_witness :
    (postSeed production ⟨7, 7, 7, 8, 8, 8⟩
        (postSeed production ⟨1, 2, 3, 4, 5, 6⟩
          (postUsers production 0 ⟨.val "Ann", .val "ann@x.com", .undefined⟩
            emptyStore).2).2).2.users.length = 3
    ∧ (postSeed production ⟨7, 7, 7, 8, 8, 8⟩
        (postSeed production ⟨1, 2, 3, 4, 5, 6⟩
          (postUsers production 0 ⟨.val "Ann", .val "ann@x.com", .undefined⟩
            emptyStore).2).2).2.posts.length = 3 :=
  (postSeed_resets production ⟨1, 2, 3, 4, 5, 6⟩ ⟨7, 7, 7, 8, 8, 8⟩
    (postUsers production 0 ⟨.val "Ann", .val "ann@x.com", .undefined⟩ emptyStore).2).2.1
    (by decide)

/-! ## C7: delete, then get -/

/-- C7. In a store whose Users have distinct ids (the unique index on _id; so
in every reachable store, by `reachable_wellFormed`) and that holds a User
with id i, DELETE /api/users/i answers status 200 with
success true, and GET /api/users/i on the resulting store answers status 404,
success false, message User not found. -/
theorem deleteUser_then_get (rt : Runtime) (s : Store) (i : ObjectId)
    (hnodup : (s.users.map (fun u => u._id)).Nodup)
    (hmem : ∃ u ∈ s.users, u._id = i) :
    (deleteUser rt (.oid i) s).1
      = { status := 200, success := true, message := some "User deleted successfully",
          count := none, data := none, error := none }
    ∧ (getUserById rt (.oid i) (deleteUser rt (.oid i) s).2).1
      = { status := 404, success := false, message := some "User not found",
          count := none, data := none, error := none } := by
  obtain ⟨u, hu, rfl⟩ := hmem
  obtain ⟨v, hv⟩ := findById_isSome_of_mem hu
  have hdel : deleteUser rt (.oid u._id) s
      = (succeeded 200 (some "User deleted successfully") none,
         { s with users := removeFirst u._id s.users }) := by
    simp [deleteUser, findByIdAndDelete, hv]
  rw [hdel]
  refine ⟨rfl, ?_⟩
  simp [getUserById, findById_removeFirst hnodup, failure]

/-- Witness of C7: the first seeded User is deleted and then fetched. -/
theorem deleteUser_then_get_witness :
    (deleteUser production (.oid 0) seeded).1
      = { status := 200, success := true, message := some "User deleted successfully",
          count := none, data := none, error := none }
    ∧ (getUserById production (.oid 0)
        (deleteUser production (.oid 0) seeded).2).1
      = { status := 404, success := false, message := some "User not found",
          count := none, data := none, error := none } :=
  deleteUser_then_get production seeded 0
    (by decide) (by decide)

/-! ## C8: partial updates -/

/-- C8, as stated, fails: a field that is present is not always set. With the
first seeded User (John Doe, 30), PUT with the body age -1 is answered 500
without data, and the stored age stays 30. -/
theorem putUser_merge_counterexample :
    (putUser production 9 (.oid 0) { name := .undefined, email := .undefined, age := .val (-1) }
        seeded).1.status = 500
    ∧ (putUser production 9 (.oid 0) { name := .undefined, email := .undefined, age := .val (-1) }
        seeded).1.data = none
    ∧ (findById (putUser production 9 (.oid 0)
          { name := .undefined, email := .undefined, age := .val (-1) }
          seeded).2.users 0).map (fun u => u.age)
        = some (.val 30) := by
  decide

/-- C8, amended. Let id i be held by the stored User u. After PUT
/api/users/i the store still holds a User u1 under i, and every field among
name, email, age that the request omits has in u1 the value it had in u.
If the answer is 200, its data is u1, a supplied name is stored trimmed, a
supplied email lower-cased and trimmed, and age, when present, is stored as
supplied. If the answer is not 200, the request is rejected: success is
false, there is no data and the whole store, the stored User included, is
unchanged. In a store with distinct User ids the answer is 200 exactly when
every field present is acceptable (name non-empty after trimming, email
non-empty and still so after lower-casing and trimming, age null or at least
0) and the new email is the current email of the User or is held by no other
User. The Posts and the Users with another id are never changed, and no User
is added or removed. -/
theorem putUser_merge (rt : Runtime) (now : Nat) (i : ObjectId) (body : UserBody) (s : Store)
    (u : UserDoc) (hu : findById s.users i = some u) :
    ∃ u1, findById (putUser rt now (.oid i) body s).2.users i = some u1
      ∧ (body.name = .undefined → u1.name = u.name)
      ∧ (body.email = .undefined → u1.email = u.email)
      ∧ (body.age = .undefined → u1.age = u.age)
      ∧ ((putUser rt now (.oid i) body s).1.status = 200 →
          (putUser rt now (.oid i) body s).1.data = some (.user u1)
          ∧ (∀ n, body.name = .val n → u1.name = trim n)
          ∧ (∀ e, body.email = .val e → u1.email = trim (rt.toLowerCase e))
          ∧ (body.age ≠ .undefined → u1.age = body.age)
          ∧ (putUser rt now (.oid i) body s).1.success = true)
      ∧ (validateUpdate (castUser rt body) = [] →
          (∀ e, body.email = .val e →
            ∀ v ∈ removeFirst i s.users, v.email ≠ trim (rt.toLowerCase e)) →
          (putUser rt now (.oid i) body s).1.status = 200)
      ∧ ((putUser rt now (.oid i) body s).1.status ≠ 200 →
          (putUser rt now (.oid i) body s).1.success = false
          ∧ (putUser rt now (.oid i) body s).1.data = none
          ∧ (putUser rt now (.oid i) body s).2 = s)
      ∧ ((s.users.map (fun v => v._id)).Nodup →
          ((putUser rt now (.oid i) body s).1.status = 200 ↔
            (body.name = .undefined ∨ ∃ n, body.name = .val n ∧ trim n ≠ "")
            ∧ (body.email = .undefined
                ∨ ∃ e, body.email = .val e ∧ e ≠ "" ∧ trim (rt.toLowerCase e) ≠ "")
            ∧ (∀ a, body.age = .val a → 0 ≤ a)
            ∧ (∀ e, body.email = .val e → trim (rt.toLowerCase e) = u.email
                ∨ ∀ v ∈ s.users, v._id ≠ i → v.email ≠ trim (rt.toLowerCase e))))
      ∧ (putUser rt now (.oid i) body s).2.posts = s.posts
      ∧ (∀ v ∈ s.users, v._id ≠ i → v ∈ (putUser rt now (.oid i) body s).2.users)
      ∧ (putUser rt now (.oid i) body s).2.users.length = s.users.length
      ∧ (putUser rt now (.oid i) body s).2.nextId = s.nextId := by
  have hid : u._id = i := (findById_some hu).1
  -- the new email, when the validators accept the body
  have hmail : validateUpdate (castUser rt body) = [] → ∀ e, body.email = .val e →
      (applySet (castUser rt body) now u).email = trim (rt.toLowerCase e) := by
    intro hval e he
    have hene : e ≠ "" := by
      intro h0
      simp [validateUpdate, castUser, castEmail, he, h0, validateEmail, requiredOk,
        trimSetter, lowercaseSetter] at hval
    simp [applySet, castUser, castEmail, he, trimSetter_eq, lowercaseSetter_eq rt hene]
  -- the duplicate test of the index, in terms of the request
  have hdupiff : validateUpdate (castUser rt body) = [] →
      (s.users.map (fun v => v._id)).Nodup →
      (¬ ((applySet (castUser rt body) now u).email ≠ u.email
          ∧ ∃ v ∈ removeFirst i s.users, v.email = (applySet (castUser rt body) now u).email)
        ↔ ∀ e, body.email = .val e → trim (rt.toLowerCase e) = u.email
            ∨ ∀ v ∈ s.users, v._id ≠ i → v.email ≠ trim (rt.toLowerCase e)) := by
    intro hval hnodup
    cases he : body.email with
    | undefined => simp [applySet, castUser, castEmail, he]
    | null => simp [applySet, castUser, castEmail, he]
    | val e =>
      rw [hmail hval e he]
      constructor
      · intro h e1 he1
        cases he1
        by_cases heq : trim (rt.toLowerCase e) = u.email
        · exact Or.inl heq
        · refine Or.inr (fun v hv hne hve => h ⟨heq, v, ?_, hve⟩)
          exact (mem_removeFirst_iff hnodup).2 ⟨hv, hne⟩
      · rintro h ⟨hne, v, hv, hve⟩
        rcases h e rfl with h | h
        · exact hne h
        · have := (mem_removeFirst_iff hnodup).1 hv
          exact h v this.1 this.2 hve
  rcases putUser_cases rt now i body s u hu with ⟨hval, h⟩ | ⟨hval, hdup, h⟩ | ⟨hval, hdup, h⟩
  · rw [h]
    refine ⟨u, hu, fun _ => rfl, fun _ => rfl, fun _ => rfl, ?_, ?_, ?_, ?_, rfl,
      fun v hv _ => hv, rfl, rfl⟩
    · intro h200; simp [failure] at h200
    · intro hv; exact absurd hv hval
    · intro _; exact ⟨rfl, rfl, rfl⟩
    · intro _
      constructor
      · intro h200; simp [failure] at h200
      · rintro ⟨h1, h2, h3, _⟩
        exact absurd ((validateUpdate_eq_nil_iff rt body).2 ⟨h1, h2, h3⟩) hval
  · rw [h]
    refine ⟨u, hu, fun _ => rfl, fun _ => rfl, fun _ => rfl, ?_, ?_, ?_, ?_, rfl,
      fun v hv _ => hv, rfl, rfl⟩
    · intro h200; simp [failure] at h200
    · intro _ hfree
      exfalso
      obtain ⟨hne, v, hv, hve⟩ := hdup
      cases he : body.email with
      | undefined => simp [applySet, castUser, castEmail, he] at hne
      | null => simp [applySet, castUser, castEmail, he] at hne
      | val e =>
        apply hfree e he v hv
        rw [hve]
        exact hmail hval e he
    · intro _; exact ⟨rfl, rfl, rfl⟩
    · intro hnodup
      constructor
      · intro h200; simp [failure] at h200
      · rintro ⟨_, _, _, h4⟩
        exact absurd hdup ((hdupiff hval hnodup).2 h4)
  · rw [h]
    refine ⟨applySet (castUser rt body) now u,
      findById_replaceFirst hu (by simp [applySet, hid]), ?_, ?_, ?_, ?_, ?_, ?_, ?_, rfl, ?_,
      length_replaceFirst _ _ _, rfl⟩
    · intro hn; simp [applySet, castUser, castName, hn]
    · intro he; simp [applySet, castUser, castEmail, he]
    · intro ha; simp [applySet, castUser, ha]
    · intro _
      refine ⟨rfl, ?_, ?_, ?_, rfl⟩
      · intro n hn; simp [applySet, castUser, castName, hn, trimSetter_eq]
      · intro e he; exact hmail hval e he
      · intro ha
        cases hb : body.age with
        | undefined => exact absurd hb ha
        | null => simp [applySet, castUser, hb]
        | val a => simp [applySet, castUser, hb]
    · intro _ _; rfl
    · intro hne; exact absurd rfl hne
    · intro hnodup
      constructor
      · intro _
        obtain ⟨h1, h2, h3⟩ := (validateUpdate_eq_nil_iff rt body).1 hval
        exact ⟨h1, h2, h3, (hdupiff hval hnodup).1 hdup⟩
      · intro _; rfl
    · intro v hv hne
      exact mem_replaceFirst_of_ne hv hne

/-- Witness of C8, amended: the first seeded User gets a new name, and an
update to the email of the second seeded User is rejected. -/
theorem putUser_merge_witness :
    (∃ u1, findById (putUser production 9 (.oid 0) ⟨.val " Johnny ", .undefined, .undefined⟩
        seeded).2.users 0 = some u1
      ∧ u1.name = "Johnny" ∧ u1.email = "john@example.com" ∧ u1.age = .val 30
      ∧ (putUser production 9 (.oid 0) ⟨.val " Johnny ", .undefined, .undefined⟩
        seeded).1.status = 200)
    ∧ ((putUser production 9 (.oid 0) ⟨.val "J", .val "jane@example.com", .val 31⟩
        seeded).1.success = false
      ∧ (putUser production 9 (.oid 0) ⟨.val "J", .val "jane@example.com", .val 31⟩
        seeded).1.data = none
      ∧ (putUser production 9 (.oid 0) ⟨.val "J", .val "jane@example.com", .val 31⟩
        seeded).2 = seeded) := by
  constructor
  · obtain ⟨u1, h1, _, h3, h4, h5, h6, _⟩ := putUser_merge production 9 0
      ⟨.val " Johnny ", .undefined, .undefined⟩ seeded john (by decide)
    have h200 := h6 (by decide) (by intro e he; cases he)
    exact ⟨u1, h1, by rw [(h5 h200).2.1 " Johnny " rfl]; decide, h3 rfl, h4 rfl, h200⟩
  · obtain ⟨_, _, _, _, _, _, _, h7, _⟩ := putUser_merge production 9 0
      ⟨.val "J", .val "jane@example.com", .val 31⟩ seeded john (by decide)
    exact h7 (by decide)

/-! ## C9: what DELETE leaves untouched -/

/-- C9, as stated, fails for an id that is not well formed. On the seeded
database the id abc matches no User, the store is unchanged, but the answer is
500 with message Failed to delete user and the text of the CastError, not 404. -/
theorem deleteUser_frame_counterexample :
    deleteUser production (.malformed "abc") seeded
      = ({ status := 500, success := false, message := some "Failed to delete user",
           count := none, data := none,
           error := some
             "Cast to ObjectId failed for value \"abc\" (type string) at path \"_id\" for model \"User\"" },
         seeded) := by
  decide

/-- C9, amended. DELETE /api/users/:id never changes the Posts collection
(Posts written by the deleted User keep their author id), removes no User with
another id and adds none. When the id is well formed and held by no User the
answer is status 404 and the store is unchanged; when the id is not well
formed the answer is status 500 and the store is unchanged. -/
theorem deleteUser_frame (rt : Runtime) (id : IdString) (s : Store) :
    (deleteUser rt id s).2.posts = s.posts
    ∧ (deleteUser rt id s).2.users.Sublist s.users
    ∧ (∀ u ∈ s.users, id ≠ .oid u._id → u ∈ (deleteUser rt id s).2.users)
    ∧ (∀ i, id = .oid i → (∀ u ∈ s.users, u._id ≠ i) →
        deleteUser rt id s
          = ({ status := 404, success := false, message := some "User not found",
               count := none, data := none, error := none }, s))
    ∧ (∀ raw, id = .malformed raw →
        deleteUser rt id s
          = ({ status := 500, success := false, message := some "Failed to delete user",
               count := none, data := none,
               error := some (castError raw "_id" "User").message }, s)) := by
  cases id with
  | malformed raw =>
    refine ⟨rfl, List.Sublist.refl _, fun u hu _ => hu, ?_, ?_⟩
    · intro i hi; cases hi
    · intro r hr; cases hr; rfl
  | oid i =>
    cases hf : findById s.users i with
    | none =>
      have hdel : deleteUser rt (.oid i) s = (failure 404 "User not found" none, s) := by
        simp [deleteUser, findByIdAndDelete, hf]
      rw [hdel]
      refine ⟨rfl, List.Sublist.refl _, fun u hu _ => hu, fun _ _ _ => rfl, ?_⟩
      intro r hr; cases hr
    | some v =>
      have hdel : deleteUser rt (.oid i) s
          = (succeeded 200 (some "User deleted successfully") none,
             { s with users := removeFirst i s.users }) := by
        simp [deleteUser, findByIdAndDelete, hf]
      rw [hdel]
      refine ⟨rfl, removeFirst_sublist i s.users, ?_, ?_, ?_⟩
      · intro u hu hne
        exact mem_removeFirst_of_ne hu (fun h => hne (by rw [h]))
      · intro j hj hall
        cases hj
        exact absurd (findById_some hf).1 (hall v (findById_some hf).2)
      · intro r hr; cases hr

/-- Witness of C9, amended: deleting an id that no seeded User holds. -/
theorem deleteUser_frame_witness :
    deleteUser production (.oid 9) seeded
      = ({ status := 404, success := false, message := some "User not found",
           count := none, data := none, error := none },
         seeded) :=
  (deleteUser_frame production (.oid 9)
    seeded).2.2.2.1 9 rfl (by decide)

/-! ## C10: listing Posts -/

/-- C10, as stated, fails: after seeding and deleting the first seeded User,
a store the API reaches, GET /api/posts returns the two Posts of that User
with author null. -/
theorem getPosts_counterexample :
    Reachable production
      (deleteUser production (.oid 0) seeded).2
    ∧ (getPosts production
        (deleteUser production (.oid 0) seeded).2).1
      = { status := 200, success := true, message := none, count := some 3,
          data := some (.posts
            [{ _id := 5, title := "Third Post", content := "This is the third post content",
               author := none, createdAt := 6, updatedAt := 6 },
             { _id := 4, title := "Second Post", content := "This is the second post content",
               author := some { _id := 1, name := "Jane Smith", email := "jane@example.com" },
               createdAt := 5, updatedAt := 5 },
             { _id := 3, title := "First Post", content := "This is the first post content",
               author := none, createdAt := 4, updatedAt := 4 }]),
          error := none } :=
  ⟨Reachable.delete (.oid 0) (Reachable.seed ⟨1, 2, 3, 4, 5, 6⟩ Reachable.empty), by decide⟩

/-- C10, amended. In every store, reachable or not, GET /api/posts answers 200
with all Posts, populated, in descending order of createdAt, and count is the
number of Posts. A Post whose author id is held by a User carries that id with
the name and email of the User; a Post whose author id is held by no User, as
after the deletion of its author, carries author null. -/
theorem getPosts_newest_first (rt : Runtime) (s : Store) :
    (getPosts rt s).1
      = { status := 200, success := true, message := none, count := some s.posts.length,
          data := some (.posts (findPosts s)), error := none }
    ∧ (getPosts rt s).2 = s
    ∧ (findPosts s).Perm (s.posts.map (populate s.users))
    ∧ (findPosts s).Sorted (fun a b => b.createdAt ≤ a.createdAt)
    ∧ (∀ p ∈ s.posts, ∀ u, findById s.users p.author = some u →
        (populate s.users p).author = some { _id := p.author, name := u.name, email := u.email })
    ∧ (∀ p ∈ s.posts, (∀ u ∈ s.users, u._id ≠ p.author) →
        (populate s.users p).author = none) := by
  refine ⟨?_, rfl, ?_, ?_, ?_, ?_⟩
  · simp [getPosts, findPosts, List.length_insertionSort]
  · exact (List.perm_insertionSort postNewerEq s.posts).map _
  · unfold findPosts
    rw [List.Sorted, List.pairwise_map]
    exact List.sorted_insertionSort postNewerEq s.posts
  · intro p _ u hu
    simp [populate, hu, (findById_some hu).1]
  · intro p _ hnone
    simp [populate, (findById_eq_none_iff _ _).2 hnone]

/-- Witness of C10, amended: the first seeded Post is populated with its author. -/
theorem getPosts_newest_first_witness :
    (populate seeded.users
        { _id := 3, title := "First Post", content := "This is the first post content",
          author := 0, createdAt := 4, updatedAt := 4 }).author
      = some { _id := 0, name := "John Doe", email := "john@example.com" } :=
  (getPosts_newest_first production seeded).2.2.2.2.1
    { _id := 3, title := "First Post", content := "This is the first post content",
      author := 0, createdAt := 4, updatedAt := 4 } (by decide)
    john (by decide)

end MernApp
